import Mathlib

/-!
Shallow embedding of the Claimix claim-orchestration core
(package claimix_ai_integration), translated from the Python source files
orchestrator.py, utils.py, advanced_imap_listener.py, followup_agent.py,
clarification_call.py (module clarifying_question), triage_agent.py
(module triage_runner), and attachment_details.py.

External effects are modelled as oracle parameters: the LLM service, SMTP
sends, the relational database, uuid minting, and the md5 / sha1 digests
used for folder names and fingerprints.  The per-claim session folder is
modelled explicitly as fields of a state record.  Timestamps and the DB
mirror writes (update_claim_stage, get_or_create_claim) are dropped: the
source treats the file store as authoritative and ignores DB failures.
-/

namespace Claimix

/-- Claim stages, from class ClaimStage in orchestrator.py (lines 137-145). -/
inductive Stage where
  | NEW
  | QUESTIONED
  | TRIAGED
  | AGENTS_RUNNING
  | REVIEW
  | FOLLOWUP_REQUESTED
  | AGENTS_COMPLETE
  | COMPLETE
deriving DecidableEq, Repr

/-- The transition table ClaimStage.VALID_TRANSITIONS (orchestrator.py 147-156). -/
def validTransitions : Stage → List Stage
  | .NEW                => [.QUESTIONED]
  | .QUESTIONED         => [.TRIAGED, .AGENTS_RUNNING]
  | .TRIAGED            => [.AGENTS_RUNNING]
  | .AGENTS_RUNNING     => [.REVIEW, .FOLLOWUP_REQUESTED, .AGENTS_COMPLETE]
  | .REVIEW             => [.AGENTS_RUNNING]
  | .FOLLOWUP_REQUESTED => [.AGENTS_RUNNING]
  | .AGENTS_COMPLETE    => [.COMPLETE]
  | .COMPLETE           => [.TRIAGED]

/-- The claim record persisted as claim.json, fields from Orchestrator.init_claim
(orchestrator.py 195-209).  created_at / updated_at timestamps and the free-text
email and subject fields are not modelled (no claim depends on them). -/
structure Claim where
  claim_id : String
  stage : Stage
  incident_types : List String
  agent_threads : List (String × String)
  completed_agents : List String
  sender_email : String
  subject_fp : Option String
  initial_subject : Option String
  clarifying_sent : Bool
deriving DecidableEq, Repr

/-- One record of decisions.json: from Orchestrator.overwrite_decision
(orchestrator.py 262-268).  The decision value is an opaque JSON blob,
modelled as a String; the timestamp is dropped. -/
structure DecisionRec where
  agent : String
  decision : String
deriving DecidableEq, Repr

/-- One pending-payload file pending_payloads/agent_pending.json, written by
Orchestrator.run_assistant (orchestrator.py 403-410).  The payload is an opaque
JSON blob; the timestamp is dropped. -/
structure PendingRec where
  agent : String
  payload : String
  processed : Bool
deriving DecidableEq, Repr

/-- One entry of the follow_up.json responses list, from
Orchestrator.save_follow_up (orchestrator.py 255-260); timestamp dropped. -/
structure FollowUpResp where
  agent : String
  response : String
deriving DecidableEq, Repr

/-- One conversation-history entry of context.json, from
Orchestrator.update_context (orchestrator.py 453-482); timestamp dropped. -/
structure HistEntry where
  role : String
  content : String
  attachments : List String
deriving DecidableEq, Repr

/-- The parsed content of attachment_data.json: the list of
(name, details) pairs under the attachment_details key
(attachment_details.py, ATTACHMENT_DETAILS_SCHEMA). -/
abbrev AttachmentDetails := List (String × String)

/-- The context.json record (Orchestrator.init_context, orchestrator.py 179-183).
last_updated is dropped. -/
structure Ctx where
  conversation_history : List HistEntry
  attachment_details : AttachmentDetails
deriving DecidableEq, Repr

/-- The per-claim session state.  Fields marked ClaimFolder live in
sessions/claim_id-folder (get_claim_session_folder); fields marked ThreadFolder
live in the legacy sessions/thread_md5-folder (get_session_folder) that the
email-keyed helper modules resolve from their first argument.  The two folders
are distinct paths (proved below), so they are distinct fields here. -/
structure SessionState where
  claimFileExists : Bool
  claim : Claim
  ctxFileExists : Bool
  ctx : Ctx
  decisions : List DecisionRec
  pending : List PendingRec
  /-- follow_up.json in the claim folder (written by save_follow_up). -/
  followUpClaimFolder : Option (List FollowUpResp)
  /-- follow_up.json in the legacy thread folder (read by run_follow_up_agent). -/
  followUpThreadFolder : Option (List FollowUpResp)
  /-- attachment_data.json in the claim folder (read by update_context). -/
  adClaimFolder : Option AttachmentDetails
  /-- attachment_data.json in the legacy thread folder (written by
  generate_attachment_details). -/
  adThreadFolder : Option AttachmentDetails
  /-- agent_messages.json entries: (agent, role, content); timestamps dropped. -/
  agentMessages : List (String × String × String)
  /-- Count of clarifier email send attempts (clarification_call.py line 152). -/
  clarifierEmails : Nat
  /-- Count of follow-up email send attempts (followup_agent.py line 113). -/
  followupEmails : Nat
  /-- The stage value run_triage writes into the legacy thread-folder claim.json
  (triage_agent.py lines 96-103); never read back by the orchestrator. -/
  legacyTriageStage : Option String
deriving DecidableEq, Repr

/-- The fresh claim record written by Orchestrator.init_claim when claim.json
does not exist yet (orchestrator.py 195-209). -/
def freshClaim (cid : String) : Claim :=
  { claim_id := cid
    stage := .NEW
    incident_types := []
    agent_threads := []
    completed_agents := []
    sender_email := ""
    subject_fp := none
    initial_subject := none
    clarifying_sent := false }

/-- A session directory before any orchestration has touched it. -/
def initState : SessionState :=
  { claimFileExists := false
    claim := freshClaim ""
    ctxFileExists := false
    ctx := { conversation_history := [], attachment_details := [] }
    decisions := []
    pending := []
    followUpClaimFolder := none
    followUpThreadFolder := none
    adClaimFolder := none
    adThreadFolder := none
    agentMessages := []
    clarifierEmails := 0
    followupEmails := 0
    legacyTriageStage := none }

/-- Orchestrator.transition (orchestrator.py 237-253): the stage changes only if
the table allows it, otherwise the claim file is not rewritten.  The
updated_at refresh on the accepting branch is dropped. -/
def transitionClaim (c : Claim) (new : Stage) : Claim :=
  if new ∈ validTransitions c.stage then { c with stage := new } else c

/-- Lift transition to the session state. -/
def transitionState (s : SessionState) (new : Stage) : SessionState :=
  { s with claim := transitionClaim s.claim new }

/-- Orchestrator.overwrite_decision (orchestrator.py 262-268): drop every
existing record of the same agent, then append the new one. -/
def overwrite_decision (ds : List DecisionRec) (agent : String) (decision : String) :
    List DecisionRec :=
  (ds.filter fun d => d.agent != agent) ++ [{ agent := agent, decision := decision }]

/-- Orchestrator.mark_agent_complete (orchestrator.py 502-509). -/
def mark_agent_complete (c : Claim) (agent : String) : Claim :=
  if agent ∈ c.completed_agents then c
  else { c with completed_agents := c.completed_agents ++ [agent] }

/-- Orchestrator.save_follow_up (orchestrator.py 255-260): load follow_up.json
or start a fresh responses list, append, save.  Writes the claim folder. -/
def save_follow_up (s : SessionState) (agent content : String) : SessionState :=
  { s with
      followUpClaimFolder :=
        some (s.followUpClaimFolder.getD [] ++ [{ agent := agent, response := content }]) }

/-- Orchestrator.save_agent_message (orchestrator.py 494-499). -/
def save_agent_message (s : SessionState) (agent content role : String) : SessionState :=
  { s with agentMessages := s.agentMessages ++ [(agent, role, content)] }

/-- The keys of DECISION_ENGINE (orchestrator.py 118-134). -/
def decisionEngineAgents : List String :=
  ["third_party_injury_assistant", "accidental_and_glass_assistant",
   "ancillary_assistant", "fire_assistant", "theft_assistant",
   "third_party_property_assistant", "special_liability_assistant",
   "legal_and_statutory_assistant", "personal_injury_assistant",
   "personal_convenience_assistant", "personal_property_assistant",
   "territorial_and_usage_assistant", "general_exceptions_assistant",
   "vehicle_security_assistant", "administrative_assistant"]

/-- Orchestrator._evaluate_pending_file (orchestrator.py 270-277): unknown agent
gives no decision; a known agent key applies the registered evaluator (an
opaque pure function, here the oracle evalFn) to the payload. -/
def evaluate_pending (evalFn : String → String → String) (p : PendingRec) :
    Option String :=
  if p.agent ∈ decisionEngineAgents then some (evalFn p.agent p.payload) else none

/-- Marking processed: info is reloaded from the per-agent file path and saved
with processed set to true (orchestrator.py 346-348).  The file path is keyed
by the agent name (PENDING_FILE_TEMPLATE), so the update is agent-keyed. -/
def setPendingProcessed (ps : List PendingRec) (agent : String) : List PendingRec :=
  ps.map fun q => if q.agent = agent then { q with processed := true } else q

/-- One iteration of the loop of Orchestrator.run_review_stage
(orchestrator.py 334-348).  The processed flag is set for every evaluated file,
also when the agent is unknown: the save at lines 346-348 is outside the
decision branch. -/
def reviewStep (evalFn : String → String → String)
    (acc : SessionState × Bool) (p : PendingRec) : SessionState × Bool :=
  let s := acc.1
  match evaluate_pending evalFn p with
  | some d =>
      let s := { s with decisions := overwrite_decision s.decisions p.agent d
                        claim := mark_agent_complete s.claim p.agent }
      ({ s with pending := setPendingProcessed s.pending p.agent }, true)
  | none =>
      ({ s with pending := setPendingProcessed s.pending p.agent }, acc.2)

/-- Orchestrator.run_review_stage (orchestrator.py 321-350): snapshot the
pending files, evaluate each (the bounded thread pool is modelled as a left
fold: every file is evaluated exactly once and the writes are serialized by
the per-claim lock), then transition to AGENTS_RUNNING if anything produced a
decision. -/
def run_review_stage (evalFn : String → String → String) (s : SessionState) :
    SessionState :=
  if s.pending.isEmpty then s
  else
    let r := s.pending.foldl (reviewStep evalFn) (s, false)
    if r.2 then transitionState r.1 .AGENTS_RUNNING else r.1

/-- Python word characters for the regex boundary anchor (ASCII part). -/
def isWordChar (c : Char) : Bool := c.isAlphanum || c == '_'

/-- Python whitespace characters (ASCII part of the regex class). -/
def isPySpace (c : Char) : Bool := c == ' ' || c == '\t' || c == '\n' || c == '\r'

/-- Python str.strip on a character list. -/
def stripWs (cs : List Char) : List Char :=
  ((cs.dropWhile isPySpace).reverse.dropWhile isPySpace).reverse

/-- Truthiness of text.strip() as used for user messages. -/
def pyStripNonEmpty (s : String) : Bool := !(stripWs s.data).isEmpty

/-- Character class of the tag body in the claim-tag pattern with IGNORECASE:
letters, digits, hyphen. -/
def isTagBodyChar (c : Char) : Bool := c.isAlphanum || c == '-'

/-- Length of a match of the claim-tag pattern at the head of the list, after
the optional opening bracket: literal clm- (any case), one or more tag-body
characters, an optional closing bracket. -/
def clmTagCore : List Char → Option Nat
  | c1 :: c2 :: c3 :: c4 :: rest =>
      if c1.toLower == 'c' && c2.toLower == 'l' && c3.toLower == 'm' && c4 == '-' then
        let run := rest.takeWhile isTagBodyChar
        if run.isEmpty then none
        else
          match rest.drop run.length with
          | ']' :: _ => some (5 + run.length)
          | _ => some (4 + run.length)
      else none
  | _ => none

/-- Length of a match of the full tag pattern (optional opening bracket first)
at the head of the list. -/
def clmTagLength (cs : List Char) : Option Nat :=
  match cs with
  | '[' :: ds => (clmTagCore ds).map (· + 1)
  | _ => clmTagCore cs

/-- re.sub of the claim-tag pattern with a single space, leftmost
non-overlapping matches (utils.normalize_subject, utils.py line 208).  Fuel
bounds the recursion; the wrapper passes the list length, which suffices since
every step consumes at least one character. -/
def removeClmTagsAux : Nat → List Char → List Char
  | 0, _ => []
  | _ + 1, [] => []
  | fuel + 1, c :: rest =>
      match clmTagLength (c :: rest) with
      | some n => ' ' :: removeClmTagsAux fuel ((c :: rest).drop n)
      | none => c :: removeClmTagsAux fuel rest

def removeClmTags (cs : List Char) : List Char := removeClmTagsAux cs.length cs

/-- re.sub of the anchored reply and forward markers (utils.py line 210): one
of re, fwd, fw followed by a colon and any whitespace, at the start only.  The
input is already lower-cased when this runs. -/
def stripReplyMarker (cs : List Char) : List Char :=
  if [ 'r', 'e', ':' ].isPrefixOf cs then (cs.drop 3).dropWhile isPySpace
  else if [ 'f', 'w', 'd', ':' ].isPrefixOf cs then (cs.drop 4).dropWhile isPySpace
  else if [ 'f', 'w', ':' ].isPrefixOf cs then (cs.drop 3).dropWhile isPySpace
  else cs

/-- re.sub of one-or-more whitespace with a single space (utils.py line 212). -/
def collapseWs : List Char → List Char
  | [] => []
  | c :: rest =>
      let tail := collapseWs rest
      if isPySpace c then
        match tail with
        | ' ' :: _ => tail
        | _ => ' ' :: tail
      else c :: tail

/-- utils.normalize_subject (utils.py 200-214): lower-case, remove claim tags,
strip a leading reply or forward marker, collapse whitespace, strip. -/
def normalize_subject (subject : String) : String :=
  String.mk (stripWs (collapseWs (stripReplyMarker
    (removeClmTags (subject.data.map Char.toLower)))))

/-- utils.subject_fingerprint (utils.py 216-222); the sha1 hex digest is an
oracle parameter. -/
def subject_fingerprint (sha1 : String → String) (sender norm : String) : String :=
  sha1 (String.mk (sender.data.map Char.toLower) ++ "|" ++ norm)

/-- Terminal outcome of one assistant run as observed by
Orchestrator.run_assistant (orchestrator.py 383-423) after polling: a tool
call with a JSON arguments payload, a final message that parses as JSON, a
final message that does not parse (an open question), or any other terminal
status / exception (isolated by the caller). -/
inductive AgentOut where
  | requiresAction (payload : String)
  | completedStructured (msg : String)
  | completedQuestion (msg : String)
  | failed

/-- Exceptions that can propagate out of the embedded functions. -/
inductive Err where
  | clarifierLlm
  | triage
  | describer
  | followUpMissing
  | followUpEmpty
  | followUpLlm
  | followUpSend
deriving DecidableEq, Repr

/-- The arguments of one orchestrate call (orchestrator.py 521-524). -/
structure OrchInput where
  sender_email : String
  user_msg : String
  attachments : List String
  claim_id : Option String
  subject : Option String

/-- Oracle outcomes of every external service consulted during one
orchestrate call. -/
structure Oracles where
  /-- Claim id minted from uuid4 when none is passed (orchestrator.py 537-538). -/
  mintedId : String
  /-- sha1 hex digest for subject fingerprints. -/
  sha1 : String → String
  /-- Fresh LLM thread id per agent. -/
  threadIdFor : String → String
  /-- Whether ASSISTANT_IDS holds a non-empty id for the agent (env vars). -/
  hasAssistantId : String → Bool
  /-- Terminal outcome of the assistant run per agent. -/
  agentOut : String → AgentOut
  /-- The registered evaluators of DECISION_ENGINE as opaque pure functions. -/
  evalFn : String → String → String
  /-- get_claim_context DB row for the clarifier: none when the claim is not in
  the DB; some none when it has no sender_email; some (some e) otherwise. -/
  clarDb : Option (Option String)
  /-- Whether the clarifier LLM call returns (true) or raises (false). -/
  clarLlmOk : Bool
  /-- Parsed triage result: none when run_triage raises
  (triage_agent.py 48-93), some types on the expected JSON. -/
  triageResult : Option (List String)
  /-- Parsed attachment-describer result: none when the call raises. -/
  describeResult : Option AttachmentDetails
  /-- Whether the follow-up LLM call returns (true) or raises (false). -/
  followLlmOk : Bool
  /-- Whether send_email returns True for the follow-up email. -/
  followSendOk : Bool

/-- Persisting a tool-call payload (orchestrator.py 407-410): save_json on the
per-agent pending path overwrites any previous file of that agent. -/
def save_pending_payload (s : SessionState) (agent payload : String) : SessionState :=
  { s with pending :=
      if s.pending.any (fun p => p.agent == agent) then
        s.pending.map fun p =>
          if p.agent = agent then { agent := agent, payload := payload, processed := false }
          else p
      else s.pending ++ [{ agent := agent, payload := payload, processed := false }] }

/-- Orchestrator.build_context_msg (orchestrator.py 352-381): the conversation
history as role-prefixed lines followed by an ATTACHMENTS section.  The upper
casing of the role and the exact layout are abbreviated; no claim inspects the
message text. -/
def build_context_msg (s : SessionState) : String :=
  String.join (s.ctx.conversation_history.map fun e => e.role ++ ": " ++ e.content ++ "\n")
    ++ String.join (s.ctx.attachment_details.map fun kv => kv.1 ++ ": " ++ kv.2 ++ "\n")

/-- Orchestrator.run_assistant (orchestrator.py 383-423): skip on a missing
assistant id; create and persist a thread handle on first use; post the context
message; then dispatch on the terminal run status.  A tool call persists the
pending payload and transitions to REVIEW, it does NOT mark the agent complete
(comment at line 413).  A completed run with a non-JSON message is appended to
the follow-up queue.  A failed run leaves no further trace (its exception is
isolated by the callers). -/
def run_assistant (orc : Oracles) (s : SessionState) (agent : String) : SessionState :=
  if !orc.hasAssistantId agent then s
  else
    let s :=
      if (List.lookup agent s.claim.agent_threads).isNone then
        { s with claim := { s.claim with
            agent_threads := s.claim.agent_threads ++ [(agent, orc.threadIdFor agent)] } }
      else s
    let s := save_agent_message s agent (build_context_msg s) "user"
    match orc.agentOut agent with
    | .requiresAction payload =>
        transitionState (save_pending_payload s agent payload) .REVIEW
    | .completedStructured msg => save_agent_message s agent msg "assistant"
    | .completedQuestion msg =>
        save_follow_up (save_agent_message s agent msg "assistant") agent msg
    | .failed => s

/-- Orchestrator.update_context (orchestrator.py 432-491): rebuild a default
context if the file is missing or malformed, append the user message entry and
the attachments entry, then copy attachment_data.json from the claim folder
into the context if that file exists.  The DB description write is dropped. -/
def update_context (s : SessionState) (user_msg : String) (attachments : List String) :
    SessionState :=
  let ctx := if s.ctxFileExists then s.ctx
             else { conversation_history := [], attachment_details := [] }
  let ctx := if pyStripNonEmpty user_msg then
      { ctx with conversation_history :=
          ctx.conversation_history ++
            [{ role := "user", content := user_msg, attachments := [] }] }
    else ctx
  let ctx := if !attachments.isEmpty then
      { ctx with conversation_history :=
          ctx.conversation_history ++
            [{ role := "user",
               content := "[" ++ toString attachments.length ++ " attachment(s)]",
               attachments := attachments }] }
    else ctx
  let ctx := match s.adClaimFolder with
    | some ad => { ctx with attachment_details := ad }
    | none => ctx
  { s with ctx := ctx, ctxFileExists := true }

/-- attachment_details.generate_attachment_details (attachment_details.py
109-150) as invoked by the orchestrator with the claim id as first argument.
The function resolves its session folder with ensure_session_structure, i.e.
the legacy email-keyed THREAD folder, so the parsed result is saved as
attachment_data.json in the thread folder, not the claim folder.  Text
extraction and block building only shape the LLM request; the parsed response
is the oracle describeResult, none modelling the call raising. -/
def generate_attachment_details (orc : Oracles) (s : SessionState) :
    SessionState × Option Err :=
  match orc.describeResult with
  | none => (s, some .describer)
  | some m => ({ s with adThreadFolder := some m }, none)

/-- clarification_call.run_clarifying_question (clarification_call.py 90-157):
look the claim up in the DB; on a missing claim or missing sender_email return
an error dict without contacting the LLM; otherwise call the LLM (which may
raise) and only then attempt the clarifier email send (line 152).  Second
component: the exception, when the LLM call raised. -/
def run_clarifying_question (orc : Oracles) (s : SessionState) :
    SessionState × Option Err :=
  match orc.clarDb with
  | none => (s, none)
  | some none => (s, none)
  | some (some _) =>
      if orc.clarLlmOk then
        ({ s with clarifierEmails := s.clarifierEmails + 1 }, none)
      else (s, some .clarifierLlm)

/-- Result of followup_agent.run_follow_up_agent on the follow_up.json contents
it resolves. -/
structure FollowResult where
  queueAfter : Option (List FollowUpResp)
  emailFileSaved : Bool
  sendAttempted : Bool
  sendSucceeded : Bool
  error : Option Err
deriving DecidableEq, Repr

/-- followup_agent.run_follow_up_agent (followup_agent.py 68-119): a missing
follow_up.json raises FileNotFoundError; an empty responses list raises
ValueError; the LLM call may raise; the HTML result is saved to
follow_up_email.json; a False from send_email raises RuntimeError; only after
a successful send is follow_up.json removed (line 117). -/
def run_follow_up_agent (queue : Option (List FollowUpResp)) (llmOk sendOk : Bool) :
    FollowResult :=
  match queue with
  | none =>
      { queueAfter := none, emailFileSaved := false, sendAttempted := false,
        sendSucceeded := false, error := some .followUpMissing }
  | some rs =>
      if rs.isEmpty then
        { queueAfter := some rs, emailFileSaved := false, sendAttempted := false,
          sendSucceeded := false, error := some .followUpEmpty }
      else if !llmOk then
        { queueAfter := some rs, emailFileSaved := false, sendAttempted := false,
          sendSucceeded := false, error := some .followUpLlm }
      else if !sendOk then
        { queueAfter := some rs, emailFileSaved := true, sendAttempted := true,
          sendSucceeded := false, error := some .followUpSend }
      else
        { queueAfter := none, emailFileSaved := true, sendAttempted := true,
          sendSucceeded := true, error := none }

/-- INCIDENT_TYPE_TO_AGENT (orchestrator.py 78-94).  An unknown key would raise
KeyError in the source; it is modelled as absent.  Triage only produces keys
of this table. -/
def incidentTypeToAgent : String → Option String
  | "accidental_and_glass_damage" => some "accidental_and_glass_assistant"
  | "fire"                        => some "fire_assistant"
  | "theft"                       => some "theft_assistant"
  | "ancillary_property"          => some "ancillary_assistant"
  | "third_party_injury"          => some "third_party_injury_assistant"
  | "third_party_property"        => some "third_party_property_assistant"
  | "special_liability"           => some "special_liability_assistant"
  | "legal_and_statutory"         => some "legal_and_statutory_assistant"
  | "personal_injury"             => some "personal_injury_assistant"
  | "personal_convenience"        => some "personal_convenience_assistant"
  | "personal_property"           => some "personal_property_assistant"
  | "territorial_usage"           => some "territorial_and_usage_assistant"
  | "general_exceptions"          => some "general_exceptions_assistant"
  | "vehicle_security"            => some "vehicle_security_assistant"
  | "administrative"              => some "administrative_assistant"
  | _ => none

/-- Orchestrator.agents_to_run (orchestrator.py 425-428). -/
def agents_to_run (s : SessionState) : List String :=
  (s.claim.incident_types.filterMap incidentTypeToAgent).filter
    fun a => !s.claim.completed_agents.contains a

/-- The follow-up step at the end of the AGENTS_RUNNING branch of orchestrate
(orchestrator.py 617-622).  The existence check is on follow_up.json in the
claim folder; the callee resolves the legacy thread folder from its first
argument and so operates on the thread-folder file.  An exception from the
callee propagates (there is no try around the call); a normal (truthy) return
transitions to FOLLOWUP_REQUESTED.  With no queue file, the claim transitions
to AGENTS_COMPLETE when no agents remain. -/
def followUpPhase (orc : Oracles) (s : SessionState) : SessionState × Option Err :=
  match s.followUpClaimFolder with
  | some _ =>
      let r := run_follow_up_agent s.followUpThreadFolder orc.followLlmOk orc.followSendOk
      let s := { s with
          followUpThreadFolder := r.queueAfter,
          followupEmails := s.followupEmails + (if r.sendAttempted then 1 else 0) }
      match r.error with
      | some e => (s, some e)
      | none => (transitionState s .FOLLOWUP_REQUESTED, none)
  | none =>
      if (agents_to_run s).isEmpty then (transitionState s .AGENTS_COMPLETE, none)
      else (s, none)

/-- The AGENTS_RUNNING branch of orchestrate (orchestrator.py 599-622): echo a
non-blank user message to every enlisted agent, fan out the assistant runs
(the bounded worker pool is modelled as a left fold; per-claim writes are
serialized by the lock), always run the review stage, then the follow-up
step. -/
def agentsRunningPhase (orc : Oracles) (userMsg : String) (s : SessionState) :
    SessionState × Option Err :=
  let agents := agents_to_run s
  let s := if pyStripNonEmpty userMsg then
      agents.foldl (fun st a => save_agent_message st a userMsg "user") s
    else s
  let s := agents.foldl (run_assistant orc) s
  let s := run_review_stage orc.evalFn s
  followUpPhase orc s

/-- The FOLLOWUP_REQUESTED branch of orchestrate (orchestrator.py 624-646).
Nothing happens on a blank message.  Otherwise the not-yet-complete agents are
re-run; then: with a queue file present, a follow-up failure propagates and a
success does NOT transition (the code only transitions on a falsy return,
which cannot happen); with no queue file, transition to AGENTS_RUNNING. -/
def followupRequestedPhase (orc : Oracles) (userMsg : String) (s : SessionState) :
    SessionState × Option Err :=
  if !pyStripNonEmpty userMsg then (s, none)
  else
    let agents := agents_to_run s
    let s := agents.foldl (fun st a => save_agent_message st a userMsg "user") s
    let s := agents.foldl (run_assistant orc) s
    match s.followUpClaimFolder with
    | some _ =>
        let r := run_follow_up_agent s.followUpThreadFolder orc.followLlmOk orc.followSendOk
        let s := { s with
            followUpThreadFolder := r.queueAfter,
            followupEmails := s.followupEmails + (if r.sendAttempted then 1 else 0) }
        match r.error with
        | some e => (s, some e)
        | none => (s, none)
    | none => (transitionState s .AGENTS_RUNNING, none)

/-- init_claim / init_context at the start of orchestrate (orchestrator.py
542-543): create claim.json and context.json when absent. -/
def initPhase (cid : String) (s0 : SessionState) : SessionState :=
  let s := if s0.claimFileExists then s0
           else { s0 with claimFileExists := true, claim := freshClaim cid }
  if s.ctxFileExists then s
  else { s with ctxFileExists := true,
                ctx := { conversation_history := [], attachment_details := [] } }

/-- Persisting sender_email and the first-contact subject fingerprint
(orchestrator.py 546-561). -/
def persistHeaderPhase (orc : Oracles) (inp : OrchInput) (s : SessionState) :
    SessionState :=
  let s := if inp.sender_email != "" && s.claim.sender_email != inp.sender_email then
      { s with claim := { s.claim with sender_email := inp.sender_email } }
    else s
  match inp.subject with
  | some subj =>
      if s.claim.subject_fp.isNone then
        let norm := normalize_subject subj
        if norm != "" then
          { s with claim := { s.claim with
              subject_fp := some (subject_fingerprint orc.sha1 inp.sender_email norm),
              initial_subject := some norm } }
        else s
      else s
  | none => s

/-- REVIEW stage first (orchestrator.py 564-565). -/
def preReviewPhase (orc : Oracles) (s : SessionState) : SessionState :=
  if s.claim.stage = .REVIEW then run_review_stage orc.evalFn s else s

/-- Attachment describer and second context update (orchestrator.py 569-571);
an exception from the describer propagates. -/
def attachPhase (orc : Oracles) (inp : OrchInput) (s : SessionState) :
    SessionState × Option Err :=
  if inp.attachments.isEmpty then (s, none)
  else
    match generate_attachment_details orc s with
    | (s1, some e) => (s1, some e)
    | (s1, none) => (update_context s1 "" [], none)

/-- The first dispatch chain of orchestrate (orchestrator.py 577-597): the NEW
branch sends the clarifier at most once (lines 577-586); the QUESTIONED branch
runs triage, which may raise, and on success records the incident types and
advances (lines 588-597).  run_triage also writes stage TRIAGED and the types
into the legacy thread-folder claim.json (triage_agent.py 96-103). -/
def dispatch1 (orc : Oracles) (s : SessionState) : SessionState × Option Err :=
  if s.claim.stage = .NEW then
    if !s.claim.clarifying_sent then
      match run_clarifying_question orc s with
      | (s1, some e) => (s1, some e)
      | (s1, none) =>
          let s1 := { s1 with claim := { s1.claim with clarifying_sent := true } }
          (transitionState s1 .QUESTIONED, none)
    else (transitionState s .QUESTIONED, none)
  else if s.claim.stage = .QUESTIONED then
    match orc.triageResult with
    | none => (s, some .triage)
    | some types =>
        let s := { s with legacyTriageStage := some "TRIAGED",
                          claim := { s.claim with incident_types := types } }
        (transitionState s .AGENTS_RUNNING, none)
  else (s, none)

/-- The second dispatch chain of orchestrate (orchestrator.py 599-646).  The
stage argument is the local variable read at line 575, reassigned to
AGENTS_RUNNING only inside the successful QUESTIONED branch (line 597). -/
def dispatch2 (orc : Oracles) (inp : OrchInput) (stage : Stage) (s : SessionState) :
    SessionState × Option Err :=
  let stage2 := if stage = .QUESTIONED then
      (if orc.triageResult.isSome then Stage.AGENTS_RUNNING else stage)
    else stage
  if stage2 = .AGENTS_RUNNING then agentsRunningPhase orc inp.user_msg s
  else if stage2 = .FOLLOWUP_REQUESTED then followupRequestedPhase orc inp.user_msg s
  else (s, none)

/-- Orchestrator.orchestrate (orchestrator.py 521-646).  The pair holds the
session state at normal return, or the state at the point where an uncaught
exception propagates together with that exception. -/
def orchestrate (orc : Oracles) (inp : OrchInput) (s0 : SessionState) :
    SessionState × Option Err :=
  let cid := inp.claim_id.getD orc.mintedId
  let s := initPhase cid s0
  let s := persistHeaderPhase orc inp s
  let s := preReviewPhase orc s
  let s := update_context s inp.user_msg inp.attachments
  match attachPhase orc inp s with
  | (s1, some e) => (s1, some e)
  | (s1, none) =>
      let stage := s1.claim.stage
      match dispatch1 orc s1 with
      | (s2, some e) => (s2, some e)
      | (s2, none) => dispatch2 orc inp stage s2

/-- One externally triggered orchestration call, as the IMAP listener performs
them: the inputs plus the oracle outcomes of the external services during that
call. -/
structure Op where
  inp : OrchInput
  orc : Oracles

/-- The session state after a sequence of orchestrate calls.  When a call
raises, the listener swallows the exception (advanced_imap_listener.py
347-358) and the state keeps all effects up to the raise point. -/
def applyOps (ops : List Op) (s : SessionState) : SessionState :=
  ops.foldl (fun st op => (orchestrate op.orc op.inp st).1) s

/-- utils.MAX_ATTACHMENT_SIZE (utils.py 17): ten binary megabytes. -/
def MAX_ATTACHMENT_SIZE : Nat := 10 * 1024 * 1024

/-- utils.DOCUMENT_EXTS (utils.py 19-29). -/
def DOCUMENT_EXTS : List String :=
  [".pdf", ".docx", ".doc", ".txt", ".jpg", ".jpeg", ".png", ".tiff", ".tif"]

/-- The basename: the component after the last path separator. -/
def lastComponent (cs : List Char) : List Char :=
  cs.foldl (fun acc c => if c == '/' then [] else acc ++ [c]) []

/-- Split a character list at its last dot: some (before, fromDot), or none
when there is no dot. -/
def splitAtLastDot : List Char → Option (List Char × List Char)
  | [] => none
  | c :: rest =>
      match splitAtLastDot rest with
      | some p => some (c :: p.1, p.2)
      | none => if c == '.' then some ([], c :: rest) else none

/-- The extension of os.path.splitext: the suffix from the last dot of the
basename, unless every character of the basename before that dot is a dot
(leading dots never start an extension). -/
def splitextExt (cs : List Char) : List Char :=
  match splitAtLastDot (lastComponent cs) with
  | some p => if p.1.any (fun c => c != '.') then p.2 else []
  | none => []

/-- utils.is_document (utils.py 177-187) on a raw filename string. -/
def is_document (filename : String) : Bool :=
  DOCUMENT_EXTS.contains (String.mk ((splitextExt filename.data).map Char.toLower))

/-- An inbound IMAP attachment: filename and byte size (the payload bytes are
dropped; they are written through verbatim). -/
structure Attachment where
  filename : String
  size : Nat
deriving DecidableEq, Repr

/-- advanced_imap_listener._save_attachments (advanced_imap_listener.py
195-208): keep an attachment iff is_document accepts the filename and the size
does not exceed MAX_ATTACHMENT_SIZE; slashes in the stored name become
underscores; an empty filename falls back to the word attachment. -/
def save_attachments (atts : List Attachment) : List String :=
  atts.foldl
    (fun stored att =>
      if !is_document att.filename || att.size > MAX_ATTACHMENT_SIZE then stored
      else
        stored ++
          [String.mk ((if att.filename = "" then "attachment" else att.filename).data.map
            fun c => if c == '/' then '_' else c)])
    []

/-- The accepted-extension set as the spec states it in section 4.5.  This
definition follows the words of the spec, for comparison with the source set
DOCUMENT_EXTS; it is not translated from the source. -/
def specAcceptedExts : List String :=
  ["pdf", "doc", "docx", "xls", "xlsx", "ppt", "pptx", "jpg", "jpeg", "png",
   "gif", "bmp", "tiff", "webp", "txt", "rtf", "csv", "json", "xml", "zip",
   "rar", "7z", "tar", "gz"]

/-- The membership test the spec claim performs on an attachment: bare
extension in the spec set and size at most ten binary megabytes. -/
def specAccepts (att : Attachment) : Bool :=
  specAcceptedExts.contains
      (String.mk (((splitextExt att.filename.data).drop 1).map Char.toLower))
    && att.size ≤ MAX_ATTACHMENT_SIZE

/-- The allowed-character class of both session-folder sanitizers (utils.py
142 and 228): ASCII letters, digits, underscore, hyphen. -/
def isSafeIdChar (c : Char) : Bool := c.isAlphanum || c == '_' || c == '-'

/-- utils.generate_thread_id (utils.py 89-91): the first 12 hex characters of
the md5 of the lower-cased email argument; the digest is an oracle. -/
def generate_thread_id (md5hex : String → String) (email : String) : String :=
  String.mk ((md5hex (String.mk (email.data.map Char.toLower))).data.take 12)

/-- The folder path utils.get_session_folder creates and returns (94-99). -/
def get_session_folder (md5hex : String → String) (email : String) : String :=
  "sessions/thread_" ++ generate_thread_id md5hex email

/-- The folder path utils.get_claim_session_folder creates and returns
(137-146): disallowed characters replaced by underscores, with an underscore
between the claim marker and the id. -/
def get_claim_session_folder (claim_id : String) : String :=
  "sessions/claim_" ++
    String.mk (claim_id.data.map fun c => if isSafeIdChar c then c else '_')

/-- utils.claim_session_path_for_id (224-229): disallowed characters removed,
and NO underscore between the claim marker and the id. -/
def claim_session_path_for_id (claim_id : String) : String :=
  "sessions/claim" ++ String.mk (claim_id.data.filter isSafeIdChar)

/-- A fragment of the filesystem: attachment_data.json contents per path. -/
abbrev AdFS := List (String × AttachmentDetails)

/-- save_json: overwrite the file at the path. -/
def fsWrite (fs : AdFS) (path : String) (v : AttachmentDetails) : AdFS :=
  (fs.filter fun kv => kv.1 != path) ++ [(path, v)]

/-- load_json guarded by os.path.exists. -/
def fsRead (fs : AdFS) (path : String) : Option AttachmentDetails :=
  List.lookup path fs

/-- The attachment_data.json path generate_attachment_details writes when the
orchestrator passes the claim id as first argument (attachment_details.py 116
and 149, via ensure_session_structure / get_session_folder). -/
def describerWritePath (md5hex : String → String) (claim_id : String) : String :=
  get_session_folder md5hex claim_id ++ "/attachment_data.json"

/-- The attachment_data.json path Orchestrator.update_context reads
(orchestrator.py 485, via get_claim_session_folder). -/
def updateContextReadPath (claim_id : String) : String :=
  get_claim_session_folder claim_id ++ "/attachment_data.json"

/-- Word-character test lifted to an optional character: the absent neighbour
at the edge of the subject counts as a non-word character. -/
def isWordOpt : Option Char → Bool
  | some c => isWordChar c
  | none => false

/-- Greedy length of the tag-character run consumed by the quantifier, with
backtracking for the trailing word-boundary anchor: the largest k between six
and the run length such that a boundary falls after the k-th run character. -/
def pickRunLen (run : List Char) (next : Option Char) : Nat → Option Nat
  | 0 => none
  | k + 1 =>
      let after := match run.get? (k + 1) with
        | some c => some c
        | none => next
      if 6 ≤ k + 1 ∧ isWordOpt (run.get? k) ≠ isWordOpt after then some (k + 1)
      else pickRunLen run next k

/-- Attempt the subject-tag token pattern of _extract_claim_id_from_subject at
the current position: a word boundary before, the literal CLM- in any case,
then six or more tag characters ending on a word boundary.  Returns the
matched token text as it appears in the subject. -/
def matchClmToken (prev : Option Char) (cs : List Char) : Option String :=
  if isWordOpt prev then none
  else
    match cs with
    | c1 :: c2 :: c3 :: c4 :: rest =>
        if c1.toLower == 'c' && c2.toLower == 'l' && c3.toLower == 'm' && c4 == '-' then
          let run := rest.takeWhile isTagBodyChar
          let next := (rest.drop run.length).head?
          match pickRunLen run next run.length with
          | some k => some (String.mk (c1 :: c2 :: c3 :: c4 :: run.take k))
          | none => none
        else none
    | _ => none

/-- re.search scanning for the leftmost match. -/
def searchClmToken : Option Char → List Char → Option String
  | _, [] => none
  | prev, c :: rest =>
      match matchClmToken prev (c :: rest) with
      | some tok => some tok
      | none => searchClmToken (some c) rest

/-- advanced_imap_listener._extract_claim_id_from_subject (120-128). -/
def extract_claim_id_from_subject (subject : String) : Option String :=
  if subject = "" then none
  else searchClmToken none subject.data

/-- advanced_imap_listener._session_exists_for_claim (130-135): os.path.isdir
on the path claim_session_path_for_id returns, against the directories that
exist. -/
def session_exists_for_claim (dirs : List String) (claim_id : String) : Bool :=
  dirs.contains (claim_session_path_for_id claim_id)

/-- The claim.json fields the resolver scans read
(advanced_imap_listener.find_claim_by_fingerprint and
last_active_claim_for_sender).  The updated_at value is only collected for
candidate tuples and never decides anything (only singleton candidate lists
are returned), so it is dropped. -/
structure StoredClaim where
  claim_id : Option String
  sender_email : Option String
  subject_fp : Option String
  stage : Option String
deriving DecidableEq, Repr

/-- One directory entry under sessions/ as the resolver scans see it. -/
structure SessionDirEntry where
  dirName : String
  claimJson : Option StoredClaim
deriving DecidableEq, Repr

/-- Python str.replace with all occurrences, on character lists; fuel bounds
the recursion and the wrapper passes the list length. -/
def replaceAllAux : Nat → List Char → List Char → List Char → List Char
  | 0, _, _, _ => []
  | _ + 1, [], _, _ => []
  | fuel + 1, c :: rest, pat, rep =>
      if pat ≠ [] ∧ pat.isPrefixOf (c :: rest) then
        rep ++ replaceAllAux fuel ((c :: rest).drop pat.length) pat rep
      else c :: replaceAllAux fuel rest pat rep

def replaceAll (cs pat rep : List Char) : List Char :=
  replaceAllAux cs.length cs pat rep

/-- The candidate id: claim_id from claim.json, or (when that is missing or
empty) the directory name with the claim_ marker removed. -/
def storedClaimIdOrName (d : StoredClaim) (dirName : String) : String :=
  match d.claim_id with
  | some c =>
      if c = "" then String.mk (replaceAll dirName.data "claim_".data "".data) else c
  | none => String.mk (replaceAll dirName.data "claim_".data "".data)

/-- advanced_imap_listener.find_claim_by_fingerprint (137-159): fires only
when exactly one stored claim of the sender carries the fingerprint. -/
def find_claim_by_fingerprint (sha1 : String → String) (store : List SessionDirEntry)
    (sender norm : String) : Option String :=
  if norm = "" ∨ sender = "" then none
  else
    let fp := subject_fingerprint sha1 sender norm
    let candidates := store.filterMap fun e =>
      if ("claim".data).isPrefixOf e.dirName.data then
        match e.claimJson with
        | some d =>
            if d.sender_email = some sender ∧ d.subject_fp = some fp then
              some (storedClaimIdOrName d e.dirName)
            else none
        | none => none
      else none
    if candidates.length = 1 then candidates.head? else none

/-- advanced_imap_listener.last_active_claim_for_sender (161-188): fires only
when the sender has exactly one stored claim whose stage is not COMPLETE. -/
def last_active_claim_for_sender (store : List SessionDirEntry) (sender : String) :
    Option String :=
  if sender = "" then none
  else
    let candidates := store.filterMap fun e =>
      if ("claim".data).isPrefixOf e.dirName.data then
        match e.claimJson with
        | some d =>
            if d.sender_email ≠ some sender then none
            else if d.stage.getD "" = "COMPLETE" then none
            else some (storedClaimIdOrName d e.dirName)
        | none => none
      else none
    if candidates.length = 1 then candidates.head? else none

/-- The claim-id resolution of poll_inbox (advanced_imap_listener.py 306-335):
subject tag (only when a session folder for the tagged id exists), then
subject fingerprint, then last-active (only for a blank normalized subject),
then minting a fresh id. -/
def resolve_claim_id (sha1 : String → String) (dirs : List String)
    (store : List SessionDirEntry) (sender subject mintedId : String) : String :=
  let byTag : Option String :=
    match extract_claim_id_from_subject subject with
    | some t => if session_exists_for_claim dirs t then some t else none
    | none => none
  match byTag with
  | some c => c
  | none =>
      let norm := normalize_subject subject
      match find_claim_by_fingerprint sha1 store sender norm with
      | some c => c
      | none =>
          if !pyStripNonEmpty norm then
            match last_active_claim_for_sender store sender with
            | some c => c
            | none => mintedId
          else mintedId

/-- The directories that exist under sessions/ for a given store, when every
claim session was created by get_claim_session_folder: the root, the
attachments root made at utils import time, and one directory per entry. -/
def dirsOfStore (store : List SessionDirEntry) : List String :=
  "sessions" :: "sessions/attachments" :: store.map (fun e => "sessions/" ++ e.dirName)

/-- A single allowed edge of the transition table. -/
def StageStep (a b : Stage) : Prop := b ∈ validTransitions a

/-- Reachability along edges of the transition table. -/
abbrev StageReach : Stage → Stage → Prop := Relation.ReflTransGen StageStep

/-- At most one decision record per agent. -/
def DecAtMostOne (s : SessionState) : Prop :=
  ∀ a : String, (s.decisions.filter (fun d => d.agent == a)).length ≤ 1

/-- Every completed agent has a decision record. -/
def CompletedHasDecision (s : SessionState) : Prop :=
  ∀ a ∈ s.claim.completed_agents, ∃ d ∈ s.decisions, d.agent = a

/-- The clarifier-email budget: at most one send attempt, and none before the
flag is up; no sends can have happened before the claim file exists. -/
def ClarBound (s : SessionState) : Prop :=
  s.clarifierEmails ≤ (if s.claim.clarifying_sent then 1 else 0) ∧
    (s.claimFileExists = false → s.clarifierEmails = 0)

/-- Before the claim file exists the placeholder record is still at NEW. -/
def StageFileInv (s : SessionState) : Prop :=
  s.claimFileExists = false → s.claim.stage = .NEW

/-- The view of the state that the clarifier logic reads and writes. -/
def clarView (s : SessionState) : Nat × Bool × Bool :=
  (s.clarifierEmails, s.claim.clarifying_sent, s.claimFileExists)

/-- A concrete oracle bundle for witnesses and counterexamples. -/
def exOracles : Oracles :=
  { mintedId := "CLM-MINT000001"
    sha1 := fun _ => "fp0"
    threadIdFor := fun _ => "thread-1"
    hasAssistantId := fun _ => true
    agentOut := fun _ => .failed
    evalFn := fun _ _ => "decision0"
    clarDb := some (some "alice@example.com")
    clarLlmOk := true
    triageResult := some ["theft"]
    describeResult := some [("photo.jpg", "a damaged car")]
    followLlmOk := true
    followSendOk := false }

/-- A concrete inbound message for witnesses. -/
def exInput : OrchInput :=
  { sender_email := "alice@example.com"
    user_msg := "my car was stolen"
    attachments := []
    claim_id := some "CLM-ABC123"
    subject := some "My car" }

/-- A claim session parked in AGENTS_COMPLETE. -/
def exStateAgentsComplete : SessionState :=
  { initState with
      claimFileExists := true, ctxFileExists := true,
      claim := { freshClaim "CLM-ABC123" with stage := .AGENTS_COMPLETE } }

/-- A claim session in NEW whose clarifier flag is already set. -/
def exStateNewFlagged : SessionState :=
  { initState with
      claimFileExists := true, ctxFileExists := true,
      claim := { freshClaim "CLM-ABC123" with clarifying_sent := true } }

/-- A REVIEW-stage session holding one pending payload of an agent that has no
registered evaluator. -/
def exStateUnknownPending : SessionState :=
  { initState with
      claimFileExists := true, ctxFileExists := true,
      claim := { freshClaim "CLM-ABC123" with stage := .REVIEW },
      pending := [{ agent := "mystery_assistant", payload := "p0", processed := false }] }

/-- An AGENTS_RUNNING session with a non-empty follow-up queue, present in the
claim folder (where save_follow_up wrote it) and mirrored in the thread folder
(where the follow-up agent would resolve it). -/
def exStateQueued : SessionState :=
  { initState with
      claimFileExists := true, ctxFileExists := true,
      claim := { freshClaim "CLM-ABC123" with
                   stage := .AGENTS_RUNNING, incident_types := ["theft"] },
      followUpClaimFolder :=
        some [{ agent := "theft_assistant", response := "When did it happen?" }],
      followUpThreadFolder :=
        some [{ agent := "theft_assistant", response := "When did it happen?" }] }

/-- The sessions store for the subject-tag scenario: exactly one session,
created by get_claim_session_folder for the id CLM-ABC123, whose claim.json
carries no stored fingerprint yet. -/
def exStore : List SessionDirEntry :=
  [{ dirName := "claim_CLM-ABC123",
     claimJson := some { claim_id := some "CLM-ABC123",
                         sender_email := some "alice@example.com",
                         subject_fp := none,
                         stage := some "AGENTS_RUNNING" } }]

/-- One concrete orchestration op for witnesses. -/
def exOp : Op := { inp := exInput, orc := exOracles }

/-- The same oracle bundle, but every agent run ends in a tool call. -/
def exOraclesTool : Oracles :=
  { exOracles with agentOut := fun _ => .requiresAction "tool-payload" }

/-- An orchestration op whose agent runs emit tool calls. -/
def exOpTool : Op := { inp := exInput, orc := exOraclesTool }

/-! ## Lemmas about the primitives -/

theorem transitionClaim_stage_cases (c : Claim) (t : Stage) :
    (transitionClaim c t).stage = c.stage ∨ StageStep c.stage (transitionClaim c t).stage := by
  unfold transitionClaim
  by_cases h : t ∈ validTransitions c.stage
  · simp [h, StageStep]
  · simp [h]

theorem stageReach_transitionClaim (c : Claim) (t : Stage) :
    StageReach c.stage (transitionClaim c t).stage := by
  rcases transitionClaim_stage_cases c t with h | h
  · rw [h]
  · exact Relation.ReflTransGen.single h

theorem transitionClaim_not_allowed {c : Claim} {t : Stage}
    (h : t ∉ validTransitions c.stage) : transitionClaim c t = c := by
  simp [transitionClaim, h]

theorem transitionClaim_clarifying (c : Claim) (t : Stage) :
    (transitionClaim c t).clarifying_sent = c.clarifying_sent := by
  unfold transitionClaim; split <;> rfl

theorem transitionClaim_completed (c : Claim) (t : Stage) :
    (transitionClaim c t).completed_agents = c.completed_agents := by
  unfold transitionClaim; split <;> rfl

theorem transitionState_clarView (s : SessionState) (t : Stage) :
    clarView (transitionState s t) = clarView s := by
  simp [transitionState, clarView, transitionClaim_clarifying]

theorem transitionState_decisions (s : SessionState) (t : Stage) :
    (transitionState s t).decisions = s.decisions := rfl

theorem transitionState_completed (s : SessionState) (t : Stage) :
    (transitionState s t).claim.completed_agents = s.claim.completed_agents := by
  simp [transitionState, transitionClaim_completed]

theorem mark_agent_complete_stage (c : Claim) (a : String) :
    (mark_agent_complete c a).stage = c.stage := by
  unfold mark_agent_complete; split <;> rfl

theorem mark_agent_complete_clarifying (c : Claim) (a : String) :
    (mark_agent_complete c a).clarifying_sent = c.clarifying_sent := by
  unfold mark_agent_complete; split <;> rfl

theorem mem_mark_agent_complete {c : Claim} {a b : String} :
    b ∈ (mark_agent_complete c a).completed_agents ↔ b ∈ c.completed_agents ∨ b = a := by
  unfold mark_agent_complete
  by_cases h : a ∈ c.completed_agents
  · simp only [if_pos h]
    exact ⟨Or.inl, fun hb => hb.elim id (fun e => e ▸ h)⟩
  · simp [if_neg h, List.mem_append]

theorem mem_overwrite_self (ds : List DecisionRec) (a v : String) :
    ({ agent := a, decision := v } : DecisionRec) ∈ overwrite_decision ds a v := by
  unfold overwrite_decision; simp

theorem mem_overwrite_of_ne {ds : List DecisionRec} {d : DecisionRec} {a : String}
    (v : String) (hne : d.agent ≠ a) (hd : d ∈ ds) :
    d ∈ overwrite_decision ds a v := by
  unfold overwrite_decision
  refine List.mem_append_left _ ?_
  rw [List.mem_filter]
  exact ⟨hd, by simp [bne, hne]⟩

theorem overwrite_filter_self (ds : List DecisionRec) (a v : String) :
    (overwrite_decision ds a v).filter (fun d => d.agent == a) =
      [{ agent := a, decision := v }] := by
  unfold overwrite_decision
  rw [List.filter_append]
  have h1 : (ds.filter fun d => d.agent != a).filter (fun d => d.agent == a) = [] := by
    rw [List.filter_eq_nil_iff]
    intro d hd
    rcases List.mem_filter.mp hd with ⟨_, hne⟩
    simp only [bne_iff_ne, ne_eq, decide_not] at hne
    simp [hne]
  rw [h1]
  simp

theorem overwrite_filter_other (ds : List DecisionRec) {a b : String} (v : String)
    (h : b ≠ a) :
    (overwrite_decision ds a v).filter (fun d => d.agent == b) =
      ds.filter (fun d => d.agent == b) := by
  unfold overwrite_decision
  rw [List.filter_append]
  have h2 : List.filter (fun d => d.agent == b)
      [({ agent := a, decision := v } : DecisionRec)] = [] := by
    simp [Ne.symm h]
  rw [h2, List.append_nil, List.filter_filter]
  apply List.filter_congr
  intro d _
  by_cases hd : d.agent = b
  · simp [hd, bne, h]
  · simp [hd]

theorem evaluate_pending_some {f : String → String → String} {p : PendingRec} {d : String}
    (h : evaluate_pending f p = some d) : p.agent ∈ decisionEngineAgents := by
  by_cases hp : p.agent ∈ decisionEngineAgents
  · exact hp
  · simp [evaluate_pending, hp] at h

theorem reviewStep_pending (f : String → String → String) (acc : SessionState × Bool)
    (p : PendingRec) :
    (reviewStep f acc p).1.pending = setPendingProcessed acc.1.pending p.agent := by
  unfold reviewStep
  cases evaluate_pending f p <;> rfl

theorem reviewStep_clarView (f : String → String → String) (acc : SessionState × Bool)
    (p : PendingRec) : clarView (reviewStep f acc p).1 = clarView acc.1 := by
  unfold reviewStep
  cases evaluate_pending f p <;>
    simp [clarView, mark_agent_complete_clarifying]

theorem reviewStep_stage (f : String → String → String) (acc : SessionState × Bool)
    (p : PendingRec) : (reviewStep f acc p).1.claim.stage = acc.1.claim.stage := by
  unfold reviewStep
  cases evaluate_pending f p <;> simp [mark_agent_complete_stage]

theorem reviewFold_pending (f : String → String → String) :
    ∀ (l : List PendingRec) (s : SessionState) (b : Bool),
      ((l.foldl (reviewStep f) (s, b)).1).pending
        = (l.map (fun p => p.agent)).foldl setPendingProcessed s.pending := by
  intro l
  induction l with
  | nil => intro s b; rfl
  | cons p l ih =>
      intro s b
      rw [List.foldl_cons, List.map_cons, List.foldl_cons]
      rcases hs : reviewStep f (s, b) p with ⟨s1, b1⟩
      have hp : s1.pending = setPendingProcessed s.pending p.agent := by
        have := reviewStep_pending f (s, b) p
        rw [hs] at this
        exact this
      rw [ih s1 b1, hp]

theorem reviewFold_clarView (f : String → String → String) :
    ∀ (l : List PendingRec) (s : SessionState) (b : Bool),
      clarView ((l.foldl (reviewStep f) (s, b)).1) = clarView s := by
  intro l
  induction l with
  | nil => intro s b; rfl
  | cons p l ih =>
      intro s b
      rw [List.foldl_cons]
      rcases hs : reviewStep f (s, b) p with ⟨s1, b1⟩
      have := reviewStep_clarView f (s, b) p
      rw [hs] at this
      rw [ih s1 b1, this]

theorem reviewFold_stage (f : String → String → String) :
    ∀ (l : List PendingRec) (s : SessionState) (b : Bool),
      ((l.foldl (reviewStep f) (s, b)).1).claim.stage = s.claim.stage := by
  intro l
  induction l with
  | nil => intro s b; rfl
  | cons p l ih =>
      intro s b
      rw [List.foldl_cons]
      rcases hs : reviewStep f (s, b) p with ⟨s1, b1⟩
      have := reviewStep_stage f (s, b) p
      rw [hs] at this
      rw [ih s1 b1, this]

theorem foldl_setPendingProcessed (agents : List String) :
    ∀ ps : List PendingRec,
      agents.foldl setPendingProcessed ps
        = ps.map (fun q => if q.agent ∈ agents then { q with processed := true } else q) := by
  induction agents with
  | nil =>
      intro ps
      simp [List.foldl_nil]
  | cons a rest ih =>
      intro ps
      rw [List.foldl_cons, ih, setPendingProcessed, List.map_map]
      apply List.map_congr_left
      intro q _
      by_cases hq : q.agent = a
      · simp [Function.comp, hq]
      · by_cases hr : q.agent ∈ rest <;> simp [Function.comp, hq, hr]

theorem run_review_stage_pending (f : String → String → String) (s : SessionState) :
    (run_review_stage f s).pending
      = s.pending.map (fun q => { q with processed := true }) := by
  unfold run_review_stage
  by_cases he : s.pending.isEmpty
  · rw [if_pos he]
    rw [List.isEmpty_iff] at he
    rw [he]
    rfl
  · rw [if_neg he]
    have hp : ((s.pending.foldl (reviewStep f) (s, false)).1).pending
        = s.pending.map (fun q => { q with processed := true }) := by
      rw [reviewFold_pending, foldl_setPendingProcessed]
      apply List.map_congr_left
      intro q hq
      have : q.agent ∈ s.pending.map (fun p => p.agent) :=
        List.mem_map.mpr ⟨q, hq, rfl⟩
      simp [this]
    dsimp only
    split
    · exact hp
    · exact hp

theorem run_review_stage_clarView (f : String → String → String) (s : SessionState) :
    clarView (run_review_stage f s) = clarView s := by
  unfold run_review_stage
  by_cases he : s.pending.isEmpty
  · rw [if_pos he]
  · rw [if_neg he]
    dsimp only
    split
    · rw [transitionState_clarView, reviewFold_clarView]
    · rw [reviewFold_clarView]

theorem stageReach_run_review_stage (f : String → String → String) (s : SessionState) :
    StageReach s.claim.stage (run_review_stage f s).claim.stage := by
  unfold run_review_stage
  by_cases he : s.pending.isEmpty
  · rw [if_pos he]
  · rw [if_neg he]
    dsimp only
    split
    · have h1 := reviewFold_stage f s.pending s false
      have h2 := stageReach_transitionClaim
        ((s.pending.foldl (reviewStep f) (s, false)).1).claim .AGENTS_RUNNING
      rw [h1] at h2
      exact h2
    · rw [reviewFold_stage]

theorem run_review_stage_stage_AR (f : String → String → String) (s : SessionState)
    (h : s.claim.stage = .AGENTS_RUNNING) :
    (run_review_stage f s).claim.stage = .AGENTS_RUNNING := by
  unfold run_review_stage
  by_cases he : s.pending.isEmpty
  · rw [if_pos he]; exact h
  · rw [if_neg he]
    dsimp only
    have hfold := reviewFold_stage f s.pending s false
    split
    · show (transitionClaim ((s.pending.foldl (reviewStep f) (s, false)).1.claim)
        .AGENTS_RUNNING).stage = _
      have hst : ((s.pending.foldl (reviewStep f) (s, false)).1.claim).stage
          = .AGENTS_RUNNING := by rw [hfold, h]
      rw [transitionClaim, hst, if_neg (by decide)]
      exact hst
    · rw [hfold]; exact h

theorem reviewFold_decisions_filter (f : String → String → String) {a : String}
    (ha : a ∉ decisionEngineAgents) :
    ∀ (l : List PendingRec) (s : SessionState) (b : Bool),
      (((l.foldl (reviewStep f) (s, b)).1).decisions.filter (fun d => d.agent == a))
        = s.decisions.filter (fun d => d.agent == a) := by
  intro l
  induction l with
  | nil => intro s b; rfl
  | cons p l ih =>
      intro s b
      rw [List.foldl_cons]
      rcases hs : reviewStep f (s, b) p with ⟨s1, b1⟩
      have hdec : s1.decisions.filter (fun d => d.agent == a)
          = s.decisions.filter (fun d => d.agent == a) := by
        unfold reviewStep at hs
        rcases hev : evaluate_pending f p with _ | d
        · rw [hev] at hs
          cases hs
          rfl
        · rw [hev] at hs
          have hpa : p.agent ∈ decisionEngineAgents := evaluate_pending_some hev
          have hne : a ≠ p.agent := fun e => ha (e ▸ hpa)
          cases hs
          exact overwrite_filter_other s.decisions d hne
      rw [ih s1 b1, hdec]

theorem reviewFold_completed_mem (f : String → String → String) {a : String}
    (ha : a ∉ decisionEngineAgents) :
    ∀ (l : List PendingRec) (s : SessionState) (b : Bool),
      (a ∈ ((l.foldl (reviewStep f) (s, b)).1).claim.completed_agents
        ↔ a ∈ s.claim.completed_agents) := by
  intro l
  induction l with
  | nil => intro s b; rfl
  | cons p l ih =>
      intro s b
      rw [List.foldl_cons]
      rcases hs : reviewStep f (s, b) p with ⟨s1, b1⟩
      have hcomp : a ∈ s1.claim.completed_agents ↔ a ∈ s.claim.completed_agents := by
        unfold reviewStep at hs
        rcases hev : evaluate_pending f p with _ | d
        · rw [hev] at hs
          cases hs
          rfl
        · rw [hev] at hs
          have hpa : p.agent ∈ decisionEngineAgents := evaluate_pending_some hev
          have hne : a ≠ p.agent := fun e => ha (e ▸ hpa)
          cases hs
          show a ∈ (mark_agent_complete s.claim p.agent).completed_agents ↔ _
          rw [mem_mark_agent_complete]
          exact ⟨fun h => h.elim id (fun e => absurd e hne), Or.inl⟩
      rw [ih s1 b1, hcomp]

theorem reviewStep_decAtMostOne (f : String → String → String)
    {acc : SessionState × Bool} (p : PendingRec) (h : DecAtMostOne acc.1) :
    DecAtMostOne (reviewStep f acc p).1 := by
  unfold reviewStep
  rcases hev : evaluate_pending f p with _ | d
  · exact h
  · intro b
    show ((overwrite_decision acc.1.decisions p.agent d).filter
      (fun x => x.agent == b)).length ≤ 1
    by_cases hb : b = p.agent
    · subst hb
      rw [overwrite_filter_self]
      simp
    · rw [overwrite_filter_other acc.1.decisions d hb]
      exact h b

theorem reviewStep_compInv (f : String → String → String)
    {acc : SessionState × Bool} (p : PendingRec) (h : CompletedHasDecision acc.1) :
    CompletedHasDecision (reviewStep f acc p).1 := by
  unfold reviewStep
  rcases hev : evaluate_pending f p with _ | d
  · exact h
  · intro a haMem
    have haMem2 : a ∈ (mark_agent_complete acc.1.claim p.agent).completed_agents := haMem
    rw [mem_mark_agent_complete] at haMem2
    rcases haMem2 with hOld | rfl
    · rcases h a hOld with ⟨dec, hdMem, hdEq⟩
      by_cases hda : a = p.agent
      · exact ⟨{ agent := p.agent, decision := d }, mem_overwrite_self _ _ _, hda.symm⟩
      · exact ⟨dec, mem_overwrite_of_ne d (by rw [hdEq]; exact hda) hdMem, hdEq⟩
    · exact ⟨{ agent := p.agent, decision := d }, mem_overwrite_self _ _ _, rfl⟩

theorem reviewFold_decAtMostOne (f : String → String → String) :
    ∀ (l : List PendingRec) (s : SessionState) (b : Bool), DecAtMostOne s →
      DecAtMostOne ((l.foldl (reviewStep f) (s, b)).1) := by
  intro l
  induction l with
  | nil => intro s b h; exact h
  | cons p l ih =>
      intro s b h
      rw [List.foldl_cons]
      rcases hs : reviewStep f (s, b) p with ⟨s1, b1⟩
      have h1 : DecAtMostOne s1 := by
        have := @reviewStep_decAtMostOne f (s, b) p h
        rw [hs] at this
        exact this
      exact ih s1 b1 h1

theorem reviewFold_compInv (f : String → String → String) :
    ∀ (l : List PendingRec) (s : SessionState) (b : Bool), CompletedHasDecision s →
      CompletedHasDecision ((l.foldl (reviewStep f) (s, b)).1) := by
  intro l
  induction l with
  | nil => intro s b h; exact h
  | cons p l ih =>
      intro s b h
      rw [List.foldl_cons]
      rcases hs : reviewStep f (s, b) p with ⟨s1, b1⟩
      have h1 : CompletedHasDecision s1 := by
        have := @reviewStep_compInv f (s, b) p h
        rw [hs] at this
        exact this
      exact ih s1 b1 h1

theorem run_review_stage_decAtMostOne (f : String → String → String)
    {s : SessionState} (h : DecAtMostOne s) : DecAtMostOne (run_review_stage f s) := by
  unfold run_review_stage
  by_cases he : s.pending.isEmpty
  · rw [if_pos he]; exact h
  · rw [if_neg he]
    dsimp only
    split
    · exact reviewFold_decAtMostOne f s.pending s false h
    · exact reviewFold_decAtMostOne f s.pending s false h

theorem run_review_stage_compInv (f : String → String → String)
    {s : SessionState} (h : CompletedHasDecision s) :
    CompletedHasDecision (run_review_stage f s) := by
  unfold run_review_stage
  by_cases he : s.pending.isEmpty
  · rw [if_pos he]; exact h
  · rw [if_neg he]
    dsimp only
    have hInv := reviewFold_compInv f s.pending s false h
    split
    · intro a ha
      rw [transitionState_completed] at ha
      rcases hInv a ha with ⟨dec, hMem, hEq⟩
      exact ⟨dec, hMem, hEq⟩
    · exact hInv

theorem stageReach_transitionState_of (s1 : SessionState) (t : Stage) {st : Stage}
    (h : s1.claim.stage = st) : StageReach st (transitionState s1 t).claim.stage := by
  subst h
  exact stageReach_transitionClaim s1.claim t

theorem run_assistant_decisions (orc : Oracles) (s : SessionState) (a : String) :
    (run_assistant orc s a).decisions = s.decisions := by
  unfold run_assistant
  split
  · rfl
  · dsimp only
    cases horc : orc.agentOut a <;>
      simp only [save_agent_message, save_follow_up, save_pending_payload,
        transitionState] <;>
      split <;> rfl

theorem run_assistant_completed (orc : Oracles) (s : SessionState) (a : String) :
    (run_assistant orc s a).claim.completed_agents = s.claim.completed_agents := by
  unfold run_assistant
  split
  · rfl
  · dsimp only
    cases horc : orc.agentOut a <;>
      simp only [save_agent_message, save_follow_up, save_pending_payload,
        transitionState, transitionClaim_completed] <;>
      split <;> simp [transitionClaim_completed]

theorem run_assistant_clarView (orc : Oracles) (s : SessionState) (a : String) :
    clarView (run_assistant orc s a) = clarView s := by
  unfold run_assistant
  split
  · rfl
  · dsimp only
    cases horc : orc.agentOut a <;>
      simp only [clarView, save_agent_message, save_follow_up, save_pending_payload,
        transitionState, transitionClaim_clarifying] <;>
      split <;> simp [transitionClaim_clarifying]

theorem stageReach_run_assistant (orc : Oracles) (s : SessionState) (a : String) :
    StageReach s.claim.stage (run_assistant orc s a).claim.stage := by
  unfold run_assistant
  split
  · exact Relation.ReflTransGen.refl
  · dsimp only
    by_cases hth : (List.lookup a s.claim.agent_threads).isNone = true
    · rw [if_pos hth]
      cases horc : orc.agentOut a
      · exact stageReach_transitionState_of _ _ rfl
      · exact Relation.ReflTransGen.refl
      · exact Relation.ReflTransGen.refl
      · exact Relation.ReflTransGen.refl
    · rw [if_neg hth]
      cases horc : orc.agentOut a
      · exact stageReach_transitionState_of _ _ rfl
      · exact Relation.ReflTransGen.refl
      · exact Relation.ReflTransGen.refl
      · exact Relation.ReflTransGen.refl

theorem decAtMostOne_of_eq {s t : SessionState} (h : t.decisions = s.decisions)
    (hs : DecAtMostOne s) : DecAtMostOne t := by
  intro a
  rw [h]
  exact hs a

theorem compInv_of_eq {s t : SessionState}
    (h1 : t.claim.completed_agents = s.claim.completed_agents)
    (h2 : t.decisions = s.decisions) (hs : CompletedHasDecision s) :
    CompletedHasDecision t := by
  intro a ha
  rw [h1] at ha
  rw [h2]
  exact hs a ha

theorem foldl_saveMsg_claim (msg role : String) :
    ∀ (l : List String) (s : SessionState),
      (l.foldl (fun st a => save_agent_message st a msg role) s).claim = s.claim := by
  intro l
  induction l with
  | nil => intro s; rfl
  | cons a l ih => intro s; rw [List.foldl_cons]; exact ih _

theorem foldl_saveMsg_decisions (msg role : String) :
    ∀ (l : List String) (s : SessionState),
      (l.foldl (fun st a => save_agent_message st a msg role) s).decisions = s.decisions := by
  intro l
  induction l with
  | nil => intro s; rfl
  | cons a l ih => intro s; rw [List.foldl_cons]; exact ih _

theorem foldl_saveMsg_clarView (msg role : String) :
    ∀ (l : List String) (s : SessionState),
      clarView (l.foldl (fun st a => save_agent_message st a msg role) s) = clarView s := by
  intro l
  induction l with
  | nil => intro s; rfl
  | cons a l ih => intro s; rw [List.foldl_cons]; exact ih _

theorem foldl_run_assistant_decisions (orc : Oracles) :
    ∀ (l : List String) (s : SessionState),
      (l.foldl (run_assistant orc) s).decisions = s.decisions := by
  intro l
  induction l with
  | nil => intro s; rfl
  | cons a l ih =>
      intro s
      rw [List.foldl_cons, ih, run_assistant_decisions]

theorem foldl_run_assistant_completed (orc : Oracles) :
    ∀ (l : List String) (s : SessionState),
      (l.foldl (run_assistant orc) s).claim.completed_agents
        = s.claim.completed_agents := by
  intro l
  induction l with
  | nil => intro s; rfl
  | cons a l ih =>
      intro s
      rw [List.foldl_cons, ih, run_assistant_completed]

theorem foldl_run_assistant_clarView (orc : Oracles) :
    ∀ (l : List String) (s : SessionState),
      clarView (l.foldl (run_assistant orc) s) = clarView s := by
  intro l
  induction l with
  | nil => intro s; rfl
  | cons a l ih =>
      intro s
      rw [List.foldl_cons, ih, run_assistant_clarView]

theorem stageReach_foldl_run_assistant (orc : Oracles) :
    ∀ (l : List String) (s : SessionState),
      StageReach s.claim.stage (l.foldl (run_assistant orc) s).claim.stage := by
  intro l
  induction l with
  | nil => intro s; exact Relation.ReflTransGen.refl
  | cons a l ih =>
      intro s
      rw [List.foldl_cons]
      exact (stageReach_run_assistant orc s a).trans (ih _)

theorem followUpPhase_decisions (orc : Oracles) (s : SessionState) :
    ((followUpPhase orc s).1).decisions = s.decisions := by
  unfold followUpPhase
  cases s.followUpClaimFolder
  · dsimp only
    split
    · exact transitionState_decisions _ _
    · rfl
  · dsimp only
    cases (run_follow_up_agent s.followUpThreadFolder orc.followLlmOk orc.followSendOk).error
    · exact transitionState_decisions _ _
    · rfl

theorem followUpPhase_completed (orc : Oracles) (s : SessionState) :
    ((followUpPhase orc s).1).claim.completed_agents = s.claim.completed_agents := by
  unfold followUpPhase
  cases s.followUpClaimFolder
  · dsimp only
    split
    · exact transitionState_completed _ _
    · rfl
  · dsimp only
    cases (run_follow_up_agent s.followUpThreadFolder orc.followLlmOk orc.followSendOk).error
    · exact transitionState_completed _ _
    · rfl

theorem followUpPhase_clarView (orc : Oracles) (s : SessionState) :
    clarView ((followUpPhase orc s).1) = clarView s := by
  unfold followUpPhase
  cases s.followUpClaimFolder
  · dsimp only
    split
    · exact transitionState_clarView _ _
    · rfl
  · dsimp only
    cases (run_follow_up_agent s.followUpThreadFolder orc.followLlmOk orc.followSendOk).error
    · exact transitionState_clarView _ _
    · rfl

theorem stageReach_followUpPhase (orc : Oracles) (s : SessionState) :
    StageReach s.claim.stage ((followUpPhase orc s).1).claim.stage := by
  unfold followUpPhase
  cases s.followUpClaimFolder
  · dsimp only
    split
    · exact stageReach_transitionState_of _ _ rfl
    · exact Relation.ReflTransGen.refl
  · dsimp only
    cases (run_follow_up_agent s.followUpThreadFolder orc.followLlmOk orc.followSendOk).error
    · exact stageReach_transitionState_of _ _ rfl
    · exact Relation.ReflTransGen.refl

theorem agentsRunningPhase_decAtMostOne (orc : Oracles) (msg : String)
    {s : SessionState} (h : DecAtMostOne s) :
    DecAtMostOne ((agentsRunningPhase orc msg s).1) := by
  unfold agentsRunningPhase
  dsimp only
  apply decAtMostOne_of_eq (followUpPhase_decisions _ _)
  apply run_review_stage_decAtMostOne
  apply decAtMostOne_of_eq (foldl_run_assistant_decisions _ _ _)
  split
  · exact decAtMostOne_of_eq (foldl_saveMsg_decisions _ _ _ _) h
  · exact h

theorem agentsRunningPhase_compInv (orc : Oracles) (msg : String)
    {s : SessionState} (h : CompletedHasDecision s) :
    CompletedHasDecision ((agentsRunningPhase orc msg s).1) := by
  unfold agentsRunningPhase
  dsimp only
  apply compInv_of_eq (followUpPhase_completed _ _) (followUpPhase_decisions _ _)
  apply run_review_stage_compInv
  apply compInv_of_eq (foldl_run_assistant_completed _ _ _)
    (foldl_run_assistant_decisions _ _ _)
  split
  · exact compInv_of_eq (congrArg Claim.completed_agents (foldl_saveMsg_claim _ _ _ _))
      (foldl_saveMsg_decisions _ _ _ _) h
  · exact h

theorem agentsRunningPhase_clarView (orc : Oracles) (msg : String) (s : SessionState) :
    clarView ((agentsRunningPhase orc msg s).1) = clarView s := by
  unfold agentsRunningPhase
  dsimp only
  rw [followUpPhase_clarView, run_review_stage_clarView, foldl_run_assistant_clarView]
  split
  · rw [foldl_saveMsg_clarView]
  · rfl

theorem stageReach_agentsRunningPhase (orc : Oracles) (msg : String) (s : SessionState) :
    StageReach s.claim.stage ((agentsRunningPhase orc msg s).1).claim.stage := by
  unfold agentsRunningPhase
  dsimp only
  have h1 : (if pyStripNonEmpty msg = true then
      (agents_to_run s).foldl (fun st a => save_agent_message st a msg "user") s
    else s).claim.stage = s.claim.stage := by
    split
    · rw [foldl_saveMsg_claim]
    · rfl
  refine Relation.ReflTransGen.trans ?_ (stageReach_followUpPhase _ _)
  refine Relation.ReflTransGen.trans ?_ (stageReach_run_review_stage _ _)
  have h2 := stageReach_foldl_run_assistant orc (agents_to_run s)
    (if pyStripNonEmpty msg = true then
      (agents_to_run s).foldl (fun st a => save_agent_message st a msg "user") s
    else s)
  rw [h1] at h2
  exact h2

theorem followupRequestedPhase_decAtMostOne (orc : Oracles) (msg : String)
    {s : SessionState} (h : DecAtMostOne s) :
    DecAtMostOne ((followupRequestedPhase orc msg s).1) := by
  unfold followupRequestedPhase
  split
  · exact h
  · dsimp only
    have hd : ((agents_to_run s).foldl (run_assistant orc)
        ((agents_to_run s).foldl (fun st a => save_agent_message st a msg "user") s)).decisions
        = s.decisions := by
      rw [foldl_run_assistant_decisions, foldl_saveMsg_decisions]
    cases hq : ((agents_to_run s).foldl (run_assistant orc)
        ((agents_to_run s).foldl (fun st a => save_agent_message st a msg "user") s)).followUpClaimFolder
    · dsimp only
      apply decAtMostOne_of_eq (transitionState_decisions _ _)
      exact decAtMostOne_of_eq hd h
    · dsimp only
      cases (run_follow_up_agent _ orc.followLlmOk orc.followSendOk).error <;>
        exact decAtMostOne_of_eq hd h

theorem followupRequestedPhase_compInv (orc : Oracles) (msg : String)
    {s : SessionState} (h : CompletedHasDecision s) :
    CompletedHasDecision ((followupRequestedPhase orc msg s).1) := by
  unfold followupRequestedPhase
  split
  · exact h
  · dsimp only
    have hd : ((agents_to_run s).foldl (run_assistant orc)
        ((agents_to_run s).foldl (fun st a => save_agent_message st a msg "user") s)).decisions
        = s.decisions := by
      rw [foldl_run_assistant_decisions, foldl_saveMsg_decisions]
    have hc : ((agents_to_run s).foldl (run_assistant orc)
        ((agents_to_run s).foldl (fun st a => save_agent_message st a msg "user") s)).claim.completed_agents
        = s.claim.completed_agents := by
      rw [foldl_run_assistant_completed, foldl_saveMsg_claim]
    cases hq : ((agents_to_run s).foldl (run_assistant orc)
        ((agents_to_run s).foldl (fun st a => save_agent_message st a msg "user") s)).followUpClaimFolder
    · dsimp only
      apply compInv_of_eq (transitionState_completed _ _) (transitionState_decisions _ _)
      exact compInv_of_eq hc hd h
    · dsimp only
      cases (run_follow_up_agent _ orc.followLlmOk orc.followSendOk).error <;>
        exact compInv_of_eq hc hd h

theorem followupRequestedPhase_clarView (orc : Oracles) (msg : String) (s : SessionState) :
    clarView ((followupRequestedPhase orc msg s).1) = clarView s := by
  unfold followupRequestedPhase
  split
  · rfl
  · dsimp only
    have hv : clarView ((agents_to_run s).foldl (run_assistant orc)
        ((agents_to_run s).foldl (fun st a => save_agent_message st a msg "user") s))
        = clarView s := by
      rw [foldl_run_assistant_clarView, foldl_saveMsg_clarView]
    cases hq : ((agents_to_run s).foldl (run_assistant orc)
        ((agents_to_run s).foldl (fun st a => save_agent_message st a msg "user") s)).followUpClaimFolder
    · dsimp only
      rw [transitionState_clarView]
      exact hv
    · dsimp only
      cases (run_follow_up_agent _ orc.followLlmOk orc.followSendOk).error <;> exact hv

theorem stageReach_followupRequestedPhase (orc : Oracles) (msg : String) (s : SessionState) :
    StageReach s.claim.stage ((followupRequestedPhase orc msg s).1).claim.stage := by
  unfold followupRequestedPhase
  split
  · exact Relation.ReflTransGen.refl
  · dsimp only
    have hreach : StageReach s.claim.stage ((agents_to_run s).foldl (run_assistant orc)
        ((agents_to_run s).foldl (fun st a => save_agent_message st a msg "user") s)).claim.stage := by
      have h1 := stageReach_foldl_run_assistant orc (agents_to_run s)
        ((agents_to_run s).foldl (fun st a => save_agent_message st a msg "user") s)
      rw [foldl_saveMsg_claim] at h1
      exact h1
    cases hq : ((agents_to_run s).foldl (run_assistant orc)
        ((agents_to_run s).foldl (fun st a => save_agent_message st a msg "user") s)).followUpClaimFolder
    · dsimp only
      exact hreach.trans (stageReach_transitionState_of _ _ rfl)
    · dsimp only
      cases (run_follow_up_agent _ orc.followLlmOk orc.followSendOk).error <;> exact hreach

theorem run_clarifying_question_claim (orc : Oracles) (s : SessionState) :
    ((run_clarifying_question orc s).1).claim = s.claim := by
  unfold run_clarifying_question
  rcases orc.clarDb with _ | (_ | e)
  · rfl
  · rfl
  · dsimp only
    split <;> rfl

theorem run_clarifying_question_decisions (orc : Oracles) (s : SessionState) :
    ((run_clarifying_question orc s).1).decisions = s.decisions := by
  unfold run_clarifying_question
  rcases orc.clarDb with _ | (_ | e)
  · rfl
  · rfl
  · dsimp only
    split <;> rfl

theorem run_clarifying_question_exists (orc : Oracles) (s : SessionState) :
    ((run_clarifying_question orc s).1).claimFileExists = s.claimFileExists := by
  unfold run_clarifying_question
  rcases orc.clarDb with _ | (_ | e)
  · rfl
  · rfl
  · dsimp only
    split <;> rfl

theorem run_clarifying_question_emails (orc : Oracles) (s : SessionState) :
    ((run_clarifying_question orc s).1).clarifierEmails ≤ s.clarifierEmails + 1 := by
  unfold run_clarifying_question
  rcases orc.clarDb with _ | (_ | e)
  · exact Nat.le_succ _
  · exact Nat.le_succ _
  · dsimp only
    split
    · exact Nat.le_refl _
    · exact Nat.le_succ _

theorem dispatch1_decisions (orc : Oracles) (s : SessionState) :
    ((dispatch1 orc s).1).decisions = s.decisions := by
  unfold dispatch1
  split
  · split
    · rcases hc : run_clarifying_question orc s with ⟨s1, e1⟩
      have hd := run_clarifying_question_decisions orc s
      rw [hc] at hd
      cases e1
      · dsimp only
        rw [transitionState_decisions]
        exact hd
      · exact hd
    · exact transitionState_decisions _ _
  · split
    · cases orc.triageResult
      · rfl
      · dsimp only
        rw [transitionState_decisions]
    · rfl

theorem dispatch1_completed (orc : Oracles) (s : SessionState) :
    ((dispatch1 orc s).1).claim.completed_agents = s.claim.completed_agents := by
  unfold dispatch1
  split
  · split
    · rcases hc : run_clarifying_question orc s with ⟨s1, e1⟩
      have hd := run_clarifying_question_claim orc s
      rw [hc] at hd
      cases e1
      · dsimp only
        rw [transitionState_completed]
        rw [show s1.claim = s.claim from hd]
      · exact congrArg Claim.completed_agents hd
    · exact transitionState_completed _ _
  · split
    · cases orc.triageResult
      · rfl
      · dsimp only
        rw [transitionState_completed]
    · rfl

theorem stageReach_dispatch1 (orc : Oracles) (s : SessionState) :
    StageReach s.claim.stage ((dispatch1 orc s).1).claim.stage := by
  unfold dispatch1
  split
  · split
    · rcases hc : run_clarifying_question orc s with ⟨s1, e1⟩
      have hd := run_clarifying_question_claim orc s
      rw [hc] at hd
      cases e1
      · dsimp only
        apply stageReach_transitionState_of
        show s1.claim.stage = s.claim.stage
        rw [hd]
      · show StageReach s.claim.stage s1.claim.stage
        rw [hd]
    · exact stageReach_transitionState_of _ _ rfl
  · split
    · cases orc.triageResult
      · exact Relation.ReflTransGen.refl
      · dsimp only
        exact stageReach_transitionState_of _ _ rfl
    · exact Relation.ReflTransGen.refl

theorem exists_of_clarView {s t : SessionState} (h : clarView t = clarView s) :
    t.claimFileExists = s.claimFileExists := congrArg (fun v => v.2.2) h

theorem emails_of_clarView {s t : SessionState} (h : clarView t = clarView s) :
    t.clarifierEmails = s.clarifierEmails := congrArg (fun v => v.1) h

theorem flag_of_clarView {s t : SessionState} (h : clarView t = clarView s) :
    t.claim.clarifying_sent = s.claim.clarifying_sent := congrArg (fun v => v.2.1) h

theorem clarBound_of_clarView {s t : SessionState} (h : clarView t = clarView s)
    (hs : ClarBound s) : ClarBound t := by
  constructor
  · rw [emails_of_clarView h, flag_of_clarView h]
    exact hs.1
  · rw [exists_of_clarView h, emails_of_clarView h]
    exact hs.2

theorem run_clarifying_question_cases (orc : Oracles) (s : SessionState) :
    run_clarifying_question orc s = (s, (run_clarifying_question orc s).2) ∨
    run_clarifying_question orc s
      = ({ s with clarifierEmails := s.clarifierEmails + 1 }, none) := by
  unfold run_clarifying_question
  rcases orc.clarDb with _ | (_ | e)
  · left; rfl
  · left; rfl
  · dsimp only
    split
    · right; rfl
    · left; rfl

theorem initPhase_exists (cid : String) (s0 : SessionState) :
    (initPhase cid s0).claimFileExists = true := by
  unfold initPhase
  dsimp only
  by_cases h : s0.claimFileExists = true
  · rw [if_pos h]
    split
    · exact h
    · exact h
  · rw [if_neg h]
    split <;> rfl

theorem initPhase_claim_of_exists {cid : String} {s0 : SessionState}
    (h : s0.claimFileExists = true) : (initPhase cid s0).claim = s0.claim := by
  unfold initPhase
  dsimp only
  rw [if_pos h]
  split <;> rfl

theorem initPhase_decisions (cid : String) (s0 : SessionState) :
    (initPhase cid s0).decisions = s0.decisions := by
  unfold initPhase
  dsimp only
  (repeat' split) <;> rfl

theorem initPhase_compInv (cid : String) {s0 : SessionState}
    (h : CompletedHasDecision s0) : CompletedHasDecision (initPhase cid s0) := by
  unfold initPhase
  dsimp only
  by_cases hex : s0.claimFileExists = true
  · rw [if_pos hex]
    split
    · exact h
    · intro a ha
      exact h a ha
  · rw [if_neg hex]
    split
    · intro a ha
      simp [freshClaim] at ha
    · intro a ha
      simp [freshClaim] at ha

theorem initPhase_clarBound (cid : String) {s0 : SessionState} (h : ClarBound s0) :
    ClarBound (initPhase cid s0) := by
  unfold initPhase
  dsimp only
  by_cases hex : s0.claimFileExists = true
  · rw [if_pos hex]
    split
    · exact h
    · exact ⟨h.1, fun hf => h.2 hf⟩
  · rw [if_neg hex]
    have hem0 : s0.clarifierEmails = 0 := by
      apply h.2
      revert hex
      cases s0.claimFileExists <;> simp
    split
    · exact ⟨by simp [freshClaim, hem0], fun _ => hem0⟩
    · exact ⟨by simp [freshClaim, hem0], fun _ => hem0⟩

theorem initPhase_stage_of_inv {cid : String} {s0 : SessionState} (h : StageFileInv s0) :
    (initPhase cid s0).claim.stage = s0.claim.stage := by
  unfold initPhase
  dsimp only
  by_cases hex : s0.claimFileExists = true
  · rw [if_pos hex]
    split <;> rfl
  · rw [if_neg hex]
    have hns : s0.claim.stage = .NEW := by
      apply h
      revert hex
      cases s0.claimFileExists <;> simp
    split
    · show (freshClaim cid).stage = s0.claim.stage
      rw [hns]; rfl
    · show (freshClaim cid).stage = s0.claim.stage
      rw [hns]; rfl

theorem persistHeader_claim_stage (orc : Oracles) (inp : OrchInput) (s : SessionState) :
    (persistHeaderPhase orc inp s).claim.stage = s.claim.stage := by
  unfold persistHeaderPhase
  rcases inp.subject with _ | subj <;> dsimp only <;> (repeat' split) <;> rfl

theorem persistHeader_decisions (orc : Oracles) (inp : OrchInput) (s : SessionState) :
    (persistHeaderPhase orc inp s).decisions = s.decisions := by
  unfold persistHeaderPhase
  rcases inp.subject with _ | subj <;> dsimp only <;> (repeat' split) <;> rfl

theorem persistHeader_completed (orc : Oracles) (inp : OrchInput) (s : SessionState) :
    (persistHeaderPhase orc inp s).claim.completed_agents
      = s.claim.completed_agents := by
  unfold persistHeaderPhase
  rcases inp.subject with _ | subj <;> dsimp only <;> (repeat' split) <;> rfl

theorem persistHeader_clarView (orc : Oracles) (inp : OrchInput) (s : SessionState) :
    clarView (persistHeaderPhase orc inp s) = clarView s := by
  unfold persistHeaderPhase
  rcases inp.subject with _ | subj <;> dsimp only <;> (repeat' split) <;> rfl

theorem update_context_claim (s : SessionState) (m : String) (a : List String) :
    (update_context s m a).claim = s.claim := rfl

theorem update_context_decisions (s : SessionState) (m : String) (a : List String) :
    (update_context s m a).decisions = s.decisions := rfl

theorem update_context_clarView (s : SessionState) (m : String) (a : List String) :
    clarView (update_context s m a) = clarView s := rfl

theorem attachPhase_claim (orc : Oracles) (inp : OrchInput) (s : SessionState) :
    ((attachPhase orc inp s).1).claim = s.claim := by
  unfold attachPhase
  split
  · rfl
  · unfold generate_attachment_details
    cases orc.describeResult <;> rfl

theorem attachPhase_decisions (orc : Oracles) (inp : OrchInput) (s : SessionState) :
    ((attachPhase orc inp s).1).decisions = s.decisions := by
  unfold attachPhase
  split
  · rfl
  · unfold generate_attachment_details
    cases orc.describeResult <;> rfl

theorem attachPhase_clarView (orc : Oracles) (inp : OrchInput) (s : SessionState) :
    clarView ((attachPhase orc inp s).1) = clarView s := by
  unfold attachPhase
  split
  · rfl
  · unfold generate_attachment_details
    cases orc.describeResult <;> rfl

theorem preReview_clarView (orc : Oracles) (s : SessionState) :
    clarView (preReviewPhase orc s) = clarView s := by
  unfold preReviewPhase
  split
  · exact run_review_stage_clarView _ _
  · rfl

theorem preReview_decAtMostOne (orc : Oracles) {s : SessionState} (h : DecAtMostOne s) :
    DecAtMostOne (preReviewPhase orc s) := by
  unfold preReviewPhase
  split
  · exact run_review_stage_decAtMostOne _ h
  · exact h

theorem preReview_compInv (orc : Oracles) {s : SessionState}
    (h : CompletedHasDecision s) : CompletedHasDecision (preReviewPhase orc s) := by
  unfold preReviewPhase
  split
  · exact run_review_stage_compInv _ h
  · exact h

theorem stageReach_preReview (orc : Oracles) (s : SessionState) :
    StageReach s.claim.stage (preReviewPhase orc s).claim.stage := by
  unfold preReviewPhase
  split
  · exact stageReach_run_review_stage _ _
  · exact Relation.ReflTransGen.refl

theorem dispatch2_decAtMostOne (orc : Oracles) (inp : OrchInput) (stage : Stage)
    {s : SessionState} (h : DecAtMostOne s) :
    DecAtMostOne ((dispatch2 orc inp stage s).1) := by
  unfold dispatch2
  dsimp only
  repeat' split
  all_goals first
    | exact agentsRunningPhase_decAtMostOne _ _ h
    | exact followupRequestedPhase_decAtMostOne _ _ h
    | exact h

theorem dispatch2_compInv (orc : Oracles) (inp : OrchInput) (stage : Stage)
    {s : SessionState} (h : CompletedHasDecision s) :
    CompletedHasDecision ((dispatch2 orc inp stage s).1) := by
  unfold dispatch2
  dsimp only
  repeat' split
  all_goals first
    | exact agentsRunningPhase_compInv _ _ h
    | exact followupRequestedPhase_compInv _ _ h
    | exact h

theorem dispatch2_clarView (orc : Oracles) (inp : OrchInput) (stage : Stage)
    (s : SessionState) : clarView ((dispatch2 orc inp stage s).1) = clarView s := by
  unfold dispatch2
  dsimp only
  repeat' split
  all_goals first
    | exact agentsRunningPhase_clarView _ _ _
    | exact followupRequestedPhase_clarView _ _ _
    | rfl

theorem stageReach_dispatch2 (orc : Oracles) (inp : OrchInput) (stage : Stage)
    (s : SessionState) :
    StageReach s.claim.stage ((dispatch2 orc inp stage s).1).claim.stage := by
  unfold dispatch2
  dsimp only
  repeat' split
  all_goals first
    | exact stageReach_agentsRunningPhase _ _ _
    | exact stageReach_followupRequestedPhase _ _ _
    | exact Relation.ReflTransGen.refl

theorem dispatch1_clarBound (orc : Oracles) {s : SessionState}
    (hex : s.claimFileExists = true) (h : ClarBound s) :
    ClarBound ((dispatch1 orc s).1) := by
  have hres : ∀ t : SessionState, t.claimFileExists = true →
      t.clarifierEmails ≤ 1 → t.claim.clarifying_sent = true → ClarBound t := by
    intro t ht h1 h2
    refine ⟨?_, ?_⟩
    · rw [h2]
      simpa using h1
    · intro hf
      rw [ht] at hf
      cases hf
  unfold dispatch1
  split
  · split
    · next hflag =>
      have hflag0 : s.claim.clarifying_sent = false := by
        revert hflag
        cases s.claim.clarifying_sent <;> simp
      have hem0 : s.clarifierEmails = 0 := by
        have h1 := h.1
        rw [hflag0] at h1
        simpa using h1
      rcases run_clarifying_question_cases orc s with hc | hc
      · rw [hc]
        cases he : (run_clarifying_question orc s).2
        · dsimp only
          apply hres
          · show s.claimFileExists = true
            exact hex
          · show s.clarifierEmails ≤ 1
            rw [hem0]
            exact Nat.zero_le 1
          · show (transitionClaim _ .QUESTIONED).clarifying_sent = true
            rw [transitionClaim_clarifying]
        · exact h
      · rw [hc]
        dsimp only
        apply hres
        · show s.claimFileExists = true
          exact hex
        · show s.clarifierEmails + 1 ≤ 1
          rw [hem0]
        · show (transitionClaim _ .QUESTIONED).clarifying_sent = true
          rw [transitionClaim_clarifying]
    · next hflag =>
      have hflag1 : s.claim.clarifying_sent = true := by
        revert hflag
        cases s.claim.clarifying_sent <;> simp
      apply hres
      · exact hex
      · have h1 := h.1
        rw [hflag1] at h1
        simpa using h1
      · show (transitionClaim s.claim .QUESTIONED).clarifying_sent = true
        rw [transitionClaim_clarifying]
        exact hflag1
  · split
    · cases orc.triageResult
      · exact h
      · dsimp only
        apply clarBound_of_clarView _ h
        show clarView (transitionState _ .AGENTS_RUNNING) = clarView s
        rw [transitionState_clarView]
        rfl
    · exact h

theorem dispatch1_flag_mono (orc : Oracles) {s : SessionState}
    (hflag : s.claim.clarifying_sent = true) :
    ((dispatch1 orc s).1).claim.clarifying_sent = true := by
  unfold dispatch1
  split
  · split
    · next hneg =>
      rw [hflag] at hneg
      simp at hneg
    · show (transitionClaim s.claim .QUESTIONED).clarifying_sent = true
      rw [transitionClaim_clarifying]
      exact hflag
  · split
    · cases orc.triageResult
      · exact hflag
      · dsimp only
        show (transitionClaim _ .AGENTS_RUNNING).clarifying_sent = true
        rw [transitionClaim_clarifying]
        exact hflag
    · exact hflag

theorem dispatch1_NEW_flagged (orc : Oracles) {s : SessionState}
    (hstage : s.claim.stage = .NEW) (hflag : s.claim.clarifying_sent = true) :
    dispatch1 orc s = (transitionState s .QUESTIONED, none) := by
  unfold dispatch1
  rw [if_pos hstage, hflag]
  simp

theorem dispatch1_exists (orc : Oracles) (s : SessionState) :
    ((dispatch1 orc s).1).claimFileExists = s.claimFileExists := by
  unfold dispatch1
  split
  · split
    · rcases hc : run_clarifying_question orc s with ⟨s1, e1⟩
      have hd := run_clarifying_question_exists orc s
      rw [hc] at hd
      cases e1
      · exact hd
      · exact hd
    · rfl
  · split
    · cases orc.triageResult
      · rfl
      · rfl
    · rfl

theorem attachPhase_ok (orc : Oracles) (inp : OrchInput) (s : SessionState)
    (h : inp.attachments ≠ [] → orc.describeResult.isSome = true) :
    (attachPhase orc inp s).2 = none := by
  unfold attachPhase
  split
  · rfl
  · next hne =>
    unfold generate_attachment_details
    cases hd : orc.describeResult
    · exfalso
      have h2 := h (by
        intro he
        apply hne
        rw [he]
        rfl)
      rw [hd] at h2
      simp at h2
    · rfl

theorem orchestrate_decAtMostOne (orc : Oracles) (inp : OrchInput) {s : SessionState}
    (h : DecAtMostOne s) : DecAtMostOne ((orchestrate orc inp s).1) := by
  unfold orchestrate
  dsimp only
  generalize hB : update_context (preReviewPhase orc (persistHeaderPhase orc inp
      (initPhase (inp.claim_id.getD orc.mintedId) s))) inp.user_msg inp.attachments = B
  have h1 : DecAtMostOne B := by
    rw [← hB]
    apply decAtMostOne_of_eq (update_context_decisions _ _ _)
    apply preReview_decAtMostOne
    apply decAtMostOne_of_eq (persistHeader_decisions _ _ _)
    exact decAtMostOne_of_eq (initPhase_decisions _ _) h
  rcases hA : attachPhase orc inp B with ⟨sa, ea⟩
  have hsa : DecAtMostOne sa := by
    have hd := attachPhase_decisions orc inp B
    rw [hA] at hd
    exact decAtMostOne_of_eq hd h1
  cases ea with
  | some e => exact hsa
  | none =>
      dsimp only
      rcases hD : dispatch1 orc sa with ⟨sd, ed⟩
      have hsd : DecAtMostOne sd := by
        have hd := dispatch1_decisions orc sa
        rw [hD] at hd
        exact decAtMostOne_of_eq hd hsa
      cases ed with
      | some e => exact hsd
      | none => exact dispatch2_decAtMostOne orc inp sa.claim.stage hsd

theorem orchestrate_compInv (orc : Oracles) (inp : OrchInput) {s : SessionState}
    (h : CompletedHasDecision s) :
    CompletedHasDecision ((orchestrate orc inp s).1) := by
  unfold orchestrate
  dsimp only
  generalize hB : update_context (preReviewPhase orc (persistHeaderPhase orc inp
      (initPhase (inp.claim_id.getD orc.mintedId) s))) inp.user_msg inp.attachments = B
  have h1 : CompletedHasDecision B := by
    rw [← hB]
    apply compInv_of_eq (congrArg Claim.completed_agents (update_context_claim _ _ _))
      (update_context_decisions _ _ _)
    apply preReview_compInv
    apply compInv_of_eq (persistHeader_completed _ _ _) (persistHeader_decisions _ _ _)
    by_cases hex : s.claimFileExists = true
    · exact compInv_of_eq
        (congrArg Claim.completed_agents (initPhase_claim_of_exists hex))
        (initPhase_decisions _ _) h
    · exact initPhase_compInv _ h
  rcases hA : attachPhase orc inp B with ⟨sa, ea⟩
  have hsa : CompletedHasDecision sa := by
    have hc := attachPhase_claim orc inp B
    have hd := attachPhase_decisions orc inp B
    rw [hA] at hc hd
    exact compInv_of_eq (congrArg Claim.completed_agents hc) hd h1
  cases ea with
  | some e => exact hsa
  | none =>
      dsimp only
      rcases hD : dispatch1 orc sa with ⟨sd, ed⟩
      have hsd : CompletedHasDecision sd := by
        have hc := dispatch1_completed orc sa
        have hd := dispatch1_decisions orc sa
        rw [hD] at hc hd
        exact compInv_of_eq hc hd hsa
      cases ed with
      | some e => exact hsd
      | none => exact dispatch2_compInv orc inp sa.claim.stage hsd

theorem orchestrate_exists (orc : Oracles) (inp : OrchInput) (s : SessionState) :
    ((orchestrate orc inp s).1).claimFileExists = true := by
  unfold orchestrate
  dsimp only
  generalize hB : update_context (preReviewPhase orc (persistHeaderPhase orc inp
      (initPhase (inp.claim_id.getD orc.mintedId) s))) inp.user_msg inp.attachments = B
  have h1 : B.claimFileExists = true := by
    rw [← hB]
    rw [exists_of_clarView (update_context_clarView _ _ _),
      exists_of_clarView (preReview_clarView _ _),
      exists_of_clarView (persistHeader_clarView _ _ _),
      initPhase_exists]
  rcases hA : attachPhase orc inp B with ⟨sa, ea⟩
  have hsa : sa.claimFileExists = true := by
    have hc := attachPhase_clarView orc inp B
    rw [hA] at hc
    rw [exists_of_clarView hc]
    exact h1
  cases ea with
  | some e => exact hsa
  | none =>
      dsimp only
      rcases hD : dispatch1 orc sa with ⟨sd, ed⟩
      have hsd : sd.claimFileExists = true := by
        have hc := dispatch1_exists orc sa
        rw [hD] at hc
        rw [hc]
        exact hsa
      cases ed with
      | some e => exact hsd
      | none =>
          rw [exists_of_clarView (dispatch2_clarView orc inp sa.claim.stage sd)]
          exact hsd

theorem orchestrate_clarBound (orc : Oracles) (inp : OrchInput) {s : SessionState}
    (h : ClarBound s) : ClarBound ((orchestrate orc inp s).1) := by
  unfold orchestrate
  dsimp only
  generalize hB : update_context (preReviewPhase orc (persistHeaderPhase orc inp
      (initPhase (inp.claim_id.getD orc.mintedId) s))) inp.user_msg inp.attachments = B
  have h1 : ClarBound B := by
    rw [← hB]
    apply clarBound_of_clarView (update_context_clarView _ _ _)
    apply clarBound_of_clarView (preReview_clarView _ _)
    apply clarBound_of_clarView (persistHeader_clarView _ _ _)
    exact initPhase_clarBound _ h
  have hexB : B.claimFileExists = true := by
    rw [← hB]
    rw [exists_of_clarView (update_context_clarView _ _ _),
      exists_of_clarView (preReview_clarView _ _),
      exists_of_clarView (persistHeader_clarView _ _ _),
      initPhase_exists]
  rcases hA : attachPhase orc inp B with ⟨sa, ea⟩
  have hca := attachPhase_clarView orc inp B
  rw [hA] at hca
  have hsa : ClarBound sa := clarBound_of_clarView hca h1
  have hexsa : sa.claimFileExists = true := by
    rw [exists_of_clarView hca]
    exact hexB
  cases ea with
  | some e => exact hsa
  | none =>
      dsimp only
      rcases hD : dispatch1 orc sa with ⟨sd, ed⟩
      have hsd : ClarBound sd := by
        have := dispatch1_clarBound orc hexsa hsa
        rw [hD] at this
        exact this
      cases ed with
      | some e => exact hsd
      | none =>
          exact clarBound_of_clarView (dispatch2_clarView orc inp sa.claim.stage sd) hsd

theorem orchestrate_stageReach (orc : Oracles) (inp : OrchInput) {s : SessionState}
    (hst : StageFileInv s) :
    StageReach s.claim.stage ((orchestrate orc inp s).1).claim.stage := by
  unfold orchestrate
  dsimp only
  generalize hB : update_context (preReviewPhase orc (persistHeaderPhase orc inp
      (initPhase (inp.claim_id.getD orc.mintedId) s))) inp.user_msg inp.attachments = B
  have hRB : StageReach s.claim.stage B.claim.stage := by
    rw [← hB]
    rw [show (update_context (preReviewPhase orc (persistHeaderPhase orc inp
        (initPhase (inp.claim_id.getD orc.mintedId) s))) inp.user_msg inp.attachments).claim
      = (preReviewPhase orc (persistHeaderPhase orc inp
        (initPhase (inp.claim_id.getD orc.mintedId) s))).claim
      from update_context_claim _ _ _]
    have h5 := stageReach_preReview orc (persistHeaderPhase orc inp
      (initPhase (inp.claim_id.getD orc.mintedId) s))
    rw [persistHeader_claim_stage, initPhase_stage_of_inv hst] at h5
    exact h5
  rcases hA : attachPhase orc inp B with ⟨sa, ea⟩
  have hcA := attachPhase_claim orc inp B
  rw [hA] at hcA
  have hRsa : StageReach s.claim.stage sa.claim.stage := by
    rw [show sa.claim = B.claim from hcA]
    exact hRB
  cases ea with
  | some e => exact hRsa
  | none =>
      dsimp only
      rcases hD : dispatch1 orc sa with ⟨sd, ed⟩
      have hRd := stageReach_dispatch1 orc sa
      rw [hD] at hRd
      have hRsd : StageReach s.claim.stage sd.claim.stage := hRsa.trans hRd
      cases ed with
      | some e => exact hRsd
      | none => exact hRsd.trans (stageReach_dispatch2 orc inp sa.claim.stage sd)

theorem orchestrate_flag_mono (orc : Oracles) (inp : OrchInput) {s : SessionState}
    (hex : s.claimFileExists = true) (hflag : s.claim.clarifying_sent = true) :
    ((orchestrate orc inp s).1).claim.clarifying_sent = true := by
  unfold orchestrate
  dsimp only
  generalize hB : update_context (preReviewPhase orc (persistHeaderPhase orc inp
      (initPhase (inp.claim_id.getD orc.mintedId) s))) inp.user_msg inp.attachments = B
  have h1 : B.claim.clarifying_sent = true := by
    rw [← hB]
    rw [flag_of_clarView (update_context_clarView _ _ _),
      flag_of_clarView (preReview_clarView _ _),
      flag_of_clarView (persistHeader_clarView _ _ _),
      congrArg Claim.clarifying_sent (initPhase_claim_of_exists hex)]
    exact hflag
  rcases hA : attachPhase orc inp B with ⟨sa, ea⟩
  have hca := attachPhase_clarView orc inp B
  rw [hA] at hca
  have hsa : sa.claim.clarifying_sent = true := by
    rw [flag_of_clarView hca]
    exact h1
  cases ea with
  | some e => exact hsa
  | none =>
      dsimp only
      rcases hD : dispatch1 orc sa with ⟨sd, ed⟩
      have hsd : sd.claim.clarifying_sent = true := by
        have := dispatch1_flag_mono orc hsa
        rw [hD] at this
        exact this
      cases ed with
      | some e => exact hsd
      | none =>
          rw [flag_of_clarView (dispatch2_clarView orc inp sa.claim.stage sd)]
          exact hsd

theorem preReview_id (orc : Oracles) {s : SessionState} (h : s.claim.stage ≠ .REVIEW) :
    preReviewPhase orc s = s := by
  unfold preReviewPhase
  rw [if_neg h]

theorem dispatch1_id (orc : Oracles) {s : SessionState} (h1 : s.claim.stage ≠ .NEW)
    (h2 : s.claim.stage ≠ .QUESTIONED) : dispatch1 orc s = (s, none) := by
  unfold dispatch1
  rw [if_neg h1, if_neg h2]

theorem dispatch2_id (orc : Oracles) (inp : OrchInput) {stage : Stage}
    (s : SessionState) (h1 : stage ≠ .QUESTIONED) (h2 : stage ≠ .AGENTS_RUNNING)
    (h3 : stage ≠ .FOLLOWUP_REQUESTED) : dispatch2 orc inp stage s = (s, none) := by
  unfold dispatch2
  dsimp only
  rw [if_neg h1, if_neg h2, if_neg h3]

theorem initPhase_emails (cid : String) (s0 : SessionState) :
    (initPhase cid s0).clarifierEmails = s0.clarifierEmails := by
  unfold initPhase
  dsimp only
  (repeat' split) <;> rfl

theorem orchestrate_stage_fixed_AC (orc : Oracles) (inp : OrchInput) {s : SessionState}
    (hex : s.claimFileExists = true) (hstage : s.claim.stage = .AGENTS_COMPLETE) :
    ((orchestrate orc inp s).1).claim.stage = .AGENTS_COMPLETE := by
  unfold orchestrate
  dsimp only
  generalize hB : update_context (preReviewPhase orc (persistHeaderPhase orc inp
      (initPhase (inp.claim_id.getD orc.mintedId) s))) inp.user_msg inp.attachments = B
  have hps : (persistHeaderPhase orc inp
      (initPhase (inp.claim_id.getD orc.mintedId) s)).claim.stage = .AGENTS_COMPLETE := by
    rw [persistHeader_claim_stage,
      congrArg Claim.stage (initPhase_claim_of_exists hex), hstage]
  have hBs : B.claim.stage = .AGENTS_COMPLETE := by
    rw [← hB, update_context_claim, preReview_id orc (by rw [hps]; decide), hps]
  rcases hA : attachPhase orc inp B with ⟨sa, ea⟩
  have hcA := attachPhase_claim orc inp B
  rw [hA] at hcA
  have hsaS : sa.claim.stage = .AGENTS_COMPLETE := by
    rw [hcA]
    exact hBs
  cases ea with
  | some e => exact hsaS
  | none =>
      dsimp only
      rw [dispatch1_id orc (by rw [hsaS]; decide) (by rw [hsaS]; decide)]
      dsimp only
      rw [dispatch2_id orc inp sa (by rw [hsaS]; decide) (by rw [hsaS]; decide)
        (by rw [hsaS]; decide)]
      exact hsaS

theorem orchestrate_NEW_flagged (orc : Oracles) (inp : OrchInput) {s : SessionState}
    (hex : s.claimFileExists = true) (hstage : s.claim.stage = .NEW)
    (hflag : s.claim.clarifying_sent = true)
    (hdesc : inp.attachments ≠ [] → orc.describeResult.isSome = true) :
    ((orchestrate orc inp s).1).claim.stage = .QUESTIONED ∧
    ((orchestrate orc inp s).1).clarifierEmails = s.clarifierEmails ∧
    ((orchestrate orc inp s).1).claim.clarifying_sent = true := by
  unfold orchestrate
  dsimp only
  generalize hB : update_context (preReviewPhase orc (persistHeaderPhase orc inp
      (initPhase (inp.claim_id.getD orc.mintedId) s))) inp.user_msg inp.attachments = B
  have hps : (persistHeaderPhase orc inp
      (initPhase (inp.claim_id.getD orc.mintedId) s)).claim.stage = .NEW := by
    rw [persistHeader_claim_stage,
      congrArg Claim.stage (initPhase_claim_of_exists hex), hstage]
  have hBs : B.claim.stage = .NEW := by
    rw [← hB, update_context_claim, preReview_id orc (by rw [hps]; decide), hps]
  have hBflag : B.claim.clarifying_sent = true := by
    rw [← hB]
    rw [flag_of_clarView (update_context_clarView _ _ _),
      flag_of_clarView (preReview_clarView _ _),
      flag_of_clarView (persistHeader_clarView _ _ _),
      congrArg Claim.clarifying_sent (initPhase_claim_of_exists hex)]
    exact hflag
  have hBem : B.clarifierEmails = s.clarifierEmails := by
    rw [← hB]
    rw [emails_of_clarView (update_context_clarView _ _ _),
      emails_of_clarView (preReview_clarView _ _),
      emails_of_clarView (persistHeader_clarView _ _ _),
      initPhase_emails]
  rcases hA : attachPhase orc inp B with ⟨sa, ea⟩
  have heaNone : ea = none := by
    have hok := attachPhase_ok orc inp B hdesc
    rw [hA] at hok
    exact hok
  subst heaNone
  dsimp only
  have hcA := attachPhase_claim orc inp B
  have hva := attachPhase_clarView orc inp B
  rw [hA] at hcA hva
  have hsaS : sa.claim.stage = .NEW := by rw [hcA]; exact hBs
  have hsaF : sa.claim.clarifying_sent = true := by rw [hcA]; exact hBflag
  have hsaE : sa.clarifierEmails = s.clarifierEmails := by
    rw [emails_of_clarView hva]
    exact hBem
  rw [dispatch1_NEW_flagged orc hsaS hsaF]
  dsimp only
  rw [dispatch2_id orc inp (transitionState sa .QUESTIONED) (by rw [hsaS]; decide)
    (by rw [hsaS]; decide) (by rw [hsaS]; decide)]
  refine ⟨?_, ?_, ?_⟩
  · show (transitionClaim sa.claim .QUESTIONED).stage = .QUESTIONED
    rw [transitionClaim, hsaS, if_pos (by decide)]
  · exact hsaE
  · show (transitionClaim sa.claim .QUESTIONED).clarifying_sent = true
    rw [transitionClaim_clarifying]
    exact hsaF

theorem applyOps_decAtMostOne (ops : List Op) : DecAtMostOne (applyOps ops initState) := by
  have key : ∀ (l : List Op) (s : SessionState), DecAtMostOne s →
      DecAtMostOne (applyOps l s) := by
    intro l
    induction l with
    | nil => intro s h; exact h
    | cons op l ih =>
        intro s h
        show DecAtMostOne (applyOps l ((orchestrate op.orc op.inp s).1))
        exact ih _ (orchestrate_decAtMostOne op.orc op.inp h)
  apply key ops initState
  intro a
  simp [initState]

theorem applyOps_compInv (ops : List Op) : CompletedHasDecision (applyOps ops initState) := by
  have key : ∀ (l : List Op) (s : SessionState), CompletedHasDecision s →
      CompletedHasDecision (applyOps l s) := by
    intro l
    induction l with
    | nil => intro s h; exact h
    | cons op l ih =>
        intro s h
        show CompletedHasDecision (applyOps l ((orchestrate op.orc op.inp s).1))
        exact ih _ (orchestrate_compInv op.orc op.inp h)
  apply key ops initState
  intro a ha
  simp [initState, freshClaim] at ha

theorem applyOps_clarBound (ops : List Op) : ClarBound (applyOps ops initState) := by
  have key : ∀ (l : List Op) (s : SessionState), ClarBound s →
      ClarBound (applyOps l s) := by
    intro l
    induction l with
    | nil => intro s h; exact h
    | cons op l ih =>
        intro s h
        show ClarBound (applyOps l ((orchestrate op.orc op.inp s).1))
        exact ih _ (orchestrate_clarBound op.orc op.inp h)
  apply key ops initState
  constructor
  · simp [initState, freshClaim]
  · intro _
    rfl

theorem applyOps_clarifierEmails (ops : List Op) :
    (applyOps ops initState).clarifierEmails ≤ 1 := by
  have h := (applyOps_clarBound ops).1
  rcases hf : (applyOps ops initState).claim.clarifying_sent with _ | _
  · rw [hf] at h
    simp at h
    omega
  · rw [hf] at h
    simpa using h

theorem applyOps_stageReach (ops : List Op) :
    StageReach Stage.NEW (applyOps ops initState).claim.stage := by
  have key : ∀ (l : List Op) (s : SessionState), StageFileInv s →
      StageReach s.claim.stage (applyOps l s).claim.stage := by
    intro l
    induction l with
    | nil => intro s h; exact Relation.ReflTransGen.refl
    | cons op l ih =>
        intro s h
        show StageReach s.claim.stage
          (applyOps l ((orchestrate op.orc op.inp s).1)).claim.stage
        have h1 := orchestrate_stageReach op.orc op.inp h
        have h2 : StageFileInv ((orchestrate op.orc op.inp s).1) := by
          intro hf
          have he := orchestrate_exists op.orc op.inp s
          rw [he] at hf
          cases hf
        exact h1.trans (ih _ h2)
  exact key ops initState (fun _ => rfl)

theorem run_follow_up_queueAfter_none_iff (q : List FollowUpResp) (llm send : Bool) :
    ((run_follow_up_agent (some q) llm send).queueAfter = none ↔
      (q ≠ [] ∧ llm = true ∧ send = true)) := by
  by_cases hqe : q = [] <;> by_cases hl : llm = true <;> by_cases hs : send = true <;>
    simp [run_follow_up_agent, List.isEmpty_iff, hqe, hl, hs]

theorem run_follow_up_sendfail (queue : Option (List FollowUpResp)) (llm : Bool) :
    (run_follow_up_agent queue llm false).queueAfter = queue := by
  cases queue with
  | none => rfl
  | some q =>
      by_cases hqe : q = [] <;> by_cases hl : llm = true <;>
        simp [run_follow_up_agent, List.isEmpty_iff, hqe, hl]

theorem run_follow_up_error_sendfail (queue : Option (List FollowUpResp)) (llm : Bool) :
    (run_follow_up_agent queue llm false).error ≠ none := by
  cases queue with
  | none => simp [run_follow_up_agent]
  | some q =>
      by_cases hqe : q = [] <;> by_cases hl : llm = true <;>
        simp [run_follow_up_agent, List.isEmpty_iff, hqe, hl]

theorem followUpPhase_sendfail (orc : Oracles) (s : SessionState)
    (q : List FollowUpResp) (hq : s.followUpClaimFolder = some q)
    (hsend : orc.followSendOk = false) (hstage : s.claim.stage = .AGENTS_RUNNING) :
    ((followUpPhase orc s).1).followUpClaimFolder = some q ∧
    ((followUpPhase orc s).1).followUpThreadFolder = s.followUpThreadFolder ∧
    ((followUpPhase orc s).1).claim.stage = .AGENTS_RUNNING := by
  unfold followUpPhase
  rw [hq]
  dsimp only
  rw [hsend]
  have hqa := run_follow_up_sendfail s.followUpThreadFolder orc.followLlmOk
  have herr := run_follow_up_error_sendfail s.followUpThreadFolder orc.followLlmOk
  cases hre : (run_follow_up_agent s.followUpThreadFolder orc.followLlmOk false).error with
  | none => exact absurd hre herr
  | some e =>
      dsimp only
      exact ⟨rfl, hqa, hstage⟩

theorem sessions_thread_data_ne (xs ys : List Char) :
    "sessions/thread_".data ++ xs ≠ "sessions/claim_".data ++ ys := by
  intro h
  have h3 := congrArg (List.take 14) h
  rw [List.take_append_of_le_length (by decide),
      List.take_append_of_le_length (by decide)] at h3
  exact absurd h3 (by decide)

theorem thread_folder_ne_claim_folder (md5hex : String → String) (a b : String) :
    get_session_folder md5hex a ≠ get_claim_session_folder b := by
  intro h
  have h2 := congrArg String.data h
  unfold get_session_folder get_claim_session_folder at h2
  rw [String.data_append, String.data_append] at h2
  exact sessions_thread_data_ne _ _ h2

theorem describer_path_ne_context_path (md5hex : String → String) (a b : String) :
    describerWritePath md5hex a ≠ updateContextReadPath b := by
  intro h
  have h2 := congrArg String.data h
  unfold describerWritePath updateContextReadPath get_session_folder
    get_claim_session_folder at h2
  rw [String.data_append, String.data_append, String.data_append,
    String.data_append, List.append_assoc, List.append_assoc] at h2
  exact sessions_thread_data_ne _ _ h2

theorem save_attachments_spec (atts : List Attachment) :
    save_attachments atts
      = (atts.filter (fun a => is_document a.filename && a.size ≤ MAX_ATTACHMENT_SIZE)).map
          (fun a => String.mk
            ((if a.filename = "" then "attachment" else a.filename).data.map
              fun c => if c == '/' then '_' else c)) := by
  have go : ∀ (l : List Attachment) (acc : List String),
      l.foldl (fun stored att =>
        if !is_document att.filename || att.size > MAX_ATTACHMENT_SIZE then stored
        else
          stored ++
            [String.mk ((if att.filename = "" then "attachment" else att.filename).data.map
              fun c => if c == '/' then '_' else c)]) acc
      = acc ++
          (l.filter (fun a => is_document a.filename && a.size ≤ MAX_ATTACHMENT_SIZE)).map
            (fun a => String.mk
              ((if a.filename = "" then "attachment" else a.filename).data.map
                fun c => if c == '/' then '_' else c)) := by
    intro l
    induction l with
    | nil => intro acc; simp
    | cons a l ih =>
        intro acc
        rw [List.foldl_cons, List.filter_cons]
        by_cases hdoc : is_document a.filename = true
        · by_cases hsz : a.size ≤ MAX_ATTACHMENT_SIZE
          · have hgt : ¬ a.size > MAX_ATTACHMENT_SIZE := by omega
            have hc1 : (!is_document a.filename
                || decide (a.size > MAX_ATTACHMENT_SIZE)) = false := by
              rw [hdoc, decide_eq_false hgt]
              rfl
            have hc2 : (is_document a.filename
                && decide (a.size ≤ MAX_ATTACHMENT_SIZE)) = true := by
              rw [hdoc, decide_eq_true hsz]
              rfl
            rw [if_neg (by simp [hc1]), ih, if_pos hc2]
            simp [List.append_assoc]
          · have hgt : a.size > MAX_ATTACHMENT_SIZE := by omega
            have hc1 : (!is_document a.filename
                || decide (a.size > MAX_ATTACHMENT_SIZE)) = true := by
              rw [decide_eq_true hgt, Bool.or_true]
            have hc2 : (is_document a.filename
                && decide (a.size ≤ MAX_ATTACHMENT_SIZE)) = false := by
              rw [decide_eq_false hsz, Bool.and_false]
            rw [if_pos hc1, if_neg (by simp [hc2]), ih]
        · have hdocf : is_document a.filename = false := by
            cases h2 : is_document a.filename
            · rfl
            · exact absurd h2 hdoc
          have hc1 : (!is_document a.filename
              || decide (a.size > MAX_ATTACHMENT_SIZE)) = true := by
            rw [hdocf]
            rfl
          have hc2 : (is_document a.filename
              && decide (a.size ≤ MAX_ATTACHMENT_SIZE)) = false := by
            rw [hdocf, Bool.false_and]
          rw [if_pos hc1, if_neg (by simp [hc2]), ih]
  have h := go atts []
  simpa [save_attachments] using h

theorem find_fp_exStore_none (sha1 : String → String) (norm : String) :
    find_claim_by_fingerprint sha1 exStore "alice@example.com" norm = none := by
  unfold find_claim_by_fingerprint
  split
  · rfl
  · dsimp only
    have hpre : (("claim".data).isPrefixOf "claim_CLM-ABC123".data) = true := by decide
    simp [exStore, hpre]

/-! ## Helper lemmas on the review stage for unknown agents -/

theorem run_review_stage_decisions_unknown (f : String → String → String)
    {a : String} (ha : a ∉ decisionEngineAgents) (s : SessionState) :
    (run_review_stage f s).decisions.filter (fun d => d.agent == a)
      = s.decisions.filter (fun d => d.agent == a) := by
  unfold run_review_stage
  by_cases he : s.pending.isEmpty
  · rw [if_pos he]
  · rw [if_neg he]
    dsimp only
    split
    · rw [transitionState_decisions, reviewFold_decisions_filter f ha s.pending s false]
    · rw [reviewFold_decisions_filter f ha s.pending s false]

theorem run_review_stage_completed_unknown (f : String → String → String)
    {a : String} (ha : a ∉ decisionEngineAgents) (s : SessionState) :
    (a ∈ (run_review_stage f s).claim.completed_agents
      ↔ a ∈ s.claim.completed_agents) := by
  unfold run_review_stage
  by_cases he : s.pending.isEmpty
  · rw [if_pos he]
  · rw [if_neg he]
    dsimp only
    split
    · rw [transitionState_completed, reviewFold_completed_mem f ha s.pending s false]
    · rw [reviewFold_completed_mem f ha s.pending s false]

theorem applyOps_fileInv (ops : List Op) : StageFileInv (applyOps ops initState) := by
  have key : ∀ (l : List Op) (s : SessionState), StageFileInv s →
      StageFileInv (applyOps l s) := by
    intro l
    induction l with
    | nil => intro s h; exact h
    | cons op l ih =>
        intro s _
        show StageFileInv (applyOps l ((orchestrate op.orc op.inp s).1))
        apply ih
        intro hf
        have he := orchestrate_exists op.orc op.inp s
        rw [he] at hf
        cases hf
  exact key ops initState (fun _ => rfl)

/-! ## The claims -/

/-- Claim C1 (amended): for every pending tool-call payload whose agent name
has no registered evaluator, run_review_stage records no decision for that
agent and does not mark it complete; but the payload record does not stay
un-processed: every snapshotted payload, the unknown-agent ones included, is
re-saved with processed set to true. -/
theorem c1_unknown_agent_review (f : String → String → String) (s : SessionState)
    (a : String) (ha : a ∉ decisionEngineAgents) :
    (run_review_stage f s).decisions.filter (fun d => d.agent == a)
        = s.decisions.filter (fun d => d.agent == a) ∧
    (a ∈ (run_review_stage f s).claim.completed_agents
        ↔ a ∈ s.claim.completed_agents) ∧
    (run_review_stage f s).pending
        = s.pending.map (fun q => { q with processed := true }) :=
  ⟨run_review_stage_decisions_unknown f ha s,
   run_review_stage_completed_unknown f ha s,
   run_review_stage_pending f s⟩

/-- Claim C1, counterexample to the spec sentence: a pending payload of the
unregistered agent mystery_assistant comes out of run_review_stage with its
processed flag set to true (the spec says the payload stays un-processed);
no decision is recorded and the agent is not marked complete. -/
theorem c1_unknown_agent_left_processed :
    "mystery_assistant" ∉ decisionEngineAgents ∧
    (run_review_stage exOracles.evalFn exStateUnknownPending).pending
        = [{ agent := "mystery_assistant", payload := "p0", processed := true }] ∧
    (run_review_stage exOracles.evalFn exStateUnknownPending).decisions = [] ∧
    (run_review_stage exOracles.evalFn exStateUnknownPending).claim.completed_agents
        = [] :=
  ⟨by decide, by decide, by decide, by decide⟩

/-- Claim C1, witness: the amended statement evaluated on the concrete
REVIEW-stage session holding one payload of the agent mystery_assistant. -/
theorem c1_unknown_agent_witness :
    ("mystery_assistant" ∉ decisionEngineAgents) ∧
    ((run_review_stage exOracles.evalFn exStateUnknownPending).decisions.filter
          (fun d => d.agent == "mystery_assistant")
        = exStateUnknownPending.decisions.filter
            (fun d => d.agent == "mystery_assistant") ∧
      ("mystery_assistant"
            ∈ (run_review_stage exOracles.evalFn
                exStateUnknownPending).claim.completed_agents
        ↔ "mystery_assistant" ∈ exStateUnknownPending.claim.completed_agents) ∧
      (run_review_stage exOracles.evalFn exStateUnknownPending).pending
        = exStateUnknownPending.pending.map (fun q => { q with processed := true })) :=
  ⟨by decide,
   c1_unknown_agent_review exOracles.evalFn exStateUnknownPending "mystery_assistant"
     (by decide)⟩

/-- Claim C2 (code bug): the subject carries the tag CLM-ABC123 and the
session folder that get_claim_session_folder created for that id exists, yet
_session_exists_for_claim answers false, because claim_session_path_for_id
omits the underscore after the claim marker; so the subject-tag rule never
fires and the resolver falls through to minting a fresh id, whatever the
fingerprint digest computes. -/
theorem c2_subject_tag_resolver_misses :
    extract_claim_id_from_subject "Update on claim CLM-ABC123" = some "CLM-ABC123" ∧
    get_claim_session_folder "CLM-ABC123" ∈ dirsOfStore exStore ∧
    session_exists_for_claim (dirsOfStore exStore) "CLM-ABC123" = false ∧
    (∀ sha1 : String → String,
        resolve_claim_id sha1 (dirsOfStore exStore) exStore "alice@example.com"
          "Update on claim CLM-ABC123" "CLM-MINT000001" = "CLM-MINT000001") ∧
    "CLM-MINT000001" ≠ "CLM-ABC123" := by
  refine ⟨by decide, by decide, by decide, ?_, by decide⟩
  intro sha1
  have hfp := find_fp_exStore_none sha1
    (normalize_subject "Update on claim CLM-ABC123")
  unfold resolve_claim_id
  dsimp only
  rw [hfp]
  decide

/-- Claim C3: every single orchestration step moves the stage along a path of
the transition table (for any state satisfying the file invariant, which every
state reached from a fresh session does), so between any two consecutive
states of an op sequence the stage changes only along the table; and a
transition request not allowed by the table leaves the claim unchanged. -/
theorem c3_stage_transition_table :
    (∀ (orc : Oracles) (inp : OrchInput) (s : SessionState), StageFileInv s →
        StageReach s.claim.stage ((orchestrate orc inp s).1).claim.stage) ∧
    (∀ ops : List Op, StageFileInv (applyOps ops initState)) ∧
    (∀ (ops : List Op) (op : Op),
        StageReach (applyOps ops initState).claim.stage
          (applyOps (ops ++ [op]) initState).claim.stage) ∧
    (∀ (c : Claim) (t : Stage), t ∉ validTransitions c.stage →
        transitionClaim c t = c) := by
  refine ⟨fun orc inp s h => orchestrate_stageReach orc inp h, applyOps_fileInv,
    ?_, fun _ _ h => transitionClaim_not_allowed h⟩
  intro ops op
  have h1 : applyOps (ops ++ [op]) initState
      = (orchestrate op.orc op.inp (applyOps ops initState)).1 := by
    unfold applyOps
    rw [List.foldl_append]
    rfl
  rw [h1]
  exact orchestrate_stageReach op.orc op.inp (applyOps_fileInv ops)

/-- Claim C3, witness: one concrete orchestration step from the fresh session
moves along the table, the file invariant holds after one op, one concrete
consecutive pair is table-related, and the rejected request NEW to COMPLETE on
a fresh claim is a no-op. -/
theorem c3_stage_witness :
    StageReach initState.claim.stage
      ((orchestrate exOracles exInput initState).1).claim.stage ∧
    StageFileInv (applyOps [exOp] initState) ∧
    StageReach (applyOps [exOp] initState).claim.stage
      (applyOps ([exOp] ++ [exOpTool]) initState).claim.stage ∧
    Stage.COMPLETE ∉ validTransitions (freshClaim "CLM-ABC123").stage ∧
    transitionClaim (freshClaim "CLM-ABC123") Stage.COMPLETE
      = freshClaim "CLM-ABC123" :=
  ⟨c3_stage_transition_table.1 exOracles exInput initState (fun _ => rfl),
   c3_stage_transition_table.2.1 [exOp],
   c3_stage_transition_table.2.2.1 [exOp] exOpTool,
   by decide,
   c3_stage_transition_table.2.2.2 (freshClaim "CLM-ABC123") Stage.COMPLETE (by decide)⟩

/-- Claim C4: after any sequence of orchestrator operations, every agent of
completed_agents has a decision record; and the requires_action branch of
run_assistant (like every other branch) leaves completed_agents unchanged, so
persisting a tool-call payload alone never marks an agent complete. -/
theorem c4_completed_requires_decision :
    (∀ ops : List Op, ∀ a ∈ (applyOps ops initState).claim.completed_agents,
        ∃ d ∈ (applyOps ops initState).decisions, d.agent = a) ∧
    (∀ (orc : Oracles) (s : SessionState) (agent : String),
        (run_assistant orc s agent).claim.completed_agents
          = s.claim.completed_agents) :=
  ⟨fun ops => applyOps_compInv ops, run_assistant_completed⟩

/-- Claim C4, witness: after an op whose agent runs end in tool calls followed
by a review pass, theft_assistant is complete and holds a decision; and a
tool-call-emitting run_assistant leaves completed_agents unchanged. -/
theorem c4_completed_witness :
    ("theft_assistant" ∈ (applyOps [exOp, exOpTool] initState).claim.completed_agents) ∧
    (∃ d ∈ (applyOps [exOp, exOpTool] initState).decisions,
        d.agent = "theft_assistant") ∧
    (run_assistant exOraclesTool exStateQueued "theft_assistant").claim.completed_agents
      = exStateQueued.claim.completed_agents :=
  ⟨by decide,
   c4_completed_requires_decision.1 [exOp, exOpTool] "theft_assistant" (by decide),
   c4_completed_requires_decision.2 exOraclesTool exStateQueued "theft_assistant"⟩

/-- Claim C5 (code bug): the transition table allows AGENTS_COMPLETE to
COMPLETE, but orchestrate has no branch for AGENTS_COMPLETE, so a claim parked
in that stage keeps it across every further orchestration. -/
theorem c5_agents_complete_stuck :
    Stage.COMPLETE ∈ validTransitions Stage.AGENTS_COMPLETE ∧
    (∀ (orc : Oracles) (inp : OrchInput) (s : SessionState),
        s.claimFileExists = true → s.claim.stage = Stage.AGENTS_COMPLETE →
        ((orchestrate orc inp s).1).claim.stage = Stage.AGENTS_COMPLETE) :=
  ⟨by decide, fun orc inp _ hex hstage => orchestrate_stage_fixed_AC orc inp hex hstage⟩

/-- Claim C5, witness: a concrete AGENTS_COMPLETE session orchestrated once
stays in AGENTS_COMPLETE. -/
theorem c5_agents_complete_witness :
    exStateAgentsComplete.claimFileExists = true ∧
    exStateAgentsComplete.claim.stage = Stage.AGENTS_COMPLETE ∧
    ((orchestrate exOracles exInput exStateAgentsComplete).1).claim.stage
      = Stage.AGENTS_COMPLETE :=
  ⟨rfl, rfl, c5_agents_complete_stuck.2 exOracles exInput exStateAgentsComplete rfl rfl⟩

/-- Claim C6: the follow-up queue is gone after run_follow_up_agent exactly
when the queue was non-empty, the LLM call succeeded and the send succeeded;
and on a send failure the follow-up phase leaves both queue files and the
AGENTS_RUNNING stage unchanged. -/
theorem c6_followup_drain_on_send :
    (∀ (q : List FollowUpResp) (llm send : Bool),
        (run_follow_up_agent (some q) llm send).queueAfter = none ↔
          q ≠ [] ∧ llm = true ∧ send = true) ∧
    (∀ (orc : Oracles) (s : SessionState) (q : List FollowUpResp),
        s.followUpClaimFolder = some q → orc.followSendOk = false →
        s.claim.stage = Stage.AGENTS_RUNNING →
        ((followUpPhase orc s).1).followUpClaimFolder = some q ∧
        ((followUpPhase orc s).1).followUpThreadFolder = s.followUpThreadFolder ∧
        ((followUpPhase orc s).1).claim.stage = Stage.AGENTS_RUNNING) :=
  ⟨run_follow_up_queueAfter_none_iff,
   fun orc s q hq hsend hstage => followUpPhase_sendfail orc s q hq hsend hstage⟩

/-- Claim C6, witness: the queued AGENTS_RUNNING session under the oracle
whose send fails keeps its queue and its stage. -/
theorem c6_followup_witness :
    exStateQueued.followUpClaimFolder
        = some [{ agent := "theft_assistant", response := "When did it happen?" }] ∧
    exOracles.followSendOk = false ∧
    exStateQueued.claim.stage = Stage.AGENTS_RUNNING ∧
    (((followUpPhase exOracles exStateQueued).1).followUpClaimFolder
        = some [{ agent := "theft_assistant", response := "When did it happen?" }] ∧
      ((followUpPhase exOracles exStateQueued).1).followUpThreadFolder
        = exStateQueued.followUpThreadFolder ∧
      ((followUpPhase exOracles exStateQueued).1).claim.stage
        = Stage.AGENTS_RUNNING) :=
  ⟨rfl, rfl, rfl,
   c6_followup_drain_on_send.2 exOracles exStateQueued _ rfl rfl rfl⟩

/-- Claim C7: from a fresh session, any sequence of orchestrator operations
attempts the clarifier email at most once; once clarifying_sent is true it
never reverts; and a further first message on a NEW claim with the flag set
advances the stage to QUESTIONED without another send. -/
theorem c7_clarifier_at_most_once :
    (∀ ops : List Op, (applyOps ops initState).clarifierEmails ≤ 1) ∧
    (∀ (orc : Oracles) (inp : OrchInput) (s : SessionState),
        s.claimFileExists = true → s.claim.clarifying_sent = true →
        ((orchestrate orc inp s).1).claim.clarifying_sent = true) ∧
    (∀ (orc : Oracles) (inp : OrchInput) (s : SessionState),
        s.claimFileExists = true → s.claim.stage = Stage.NEW →
        s.claim.clarifying_sent = true →
        (inp.attachments ≠ [] → orc.describeResult.isSome = true) →
        ((orchestrate orc inp s).1).claim.stage = Stage.QUESTIONED ∧
        ((orchestrate orc inp s).1).clarifierEmails = s.clarifierEmails ∧
        ((orchestrate orc inp s).1).claim.clarifying_sent = true) :=
  ⟨applyOps_clarifierEmails,
   fun orc inp _ hex hflag => orchestrate_flag_mono orc inp hex hflag,
   fun orc inp _ hex hstage hflag hdesc =>
     orchestrate_NEW_flagged orc inp hex hstage hflag hdesc⟩

/-- Claim C7, witness: one concrete op stays within the email budget, and the
NEW session with the flag already set moves to QUESTIONED with no further
email and the flag still up. -/
theorem c7_clarifier_witness :
    (applyOps [exOp] initState).clarifierEmails ≤ 1 ∧
    exStateNewFlagged.claimFileExists = true ∧
    exStateNewFlagged.claim.stage = Stage.NEW ∧
    exStateNewFlagged.claim.clarifying_sent = true ∧
    (((orchestrate exOracles exInput exStateNewFlagged).1).claim.stage
        = Stage.QUESTIONED ∧
      ((orchestrate exOracles exInput exStateNewFlagged).1).clarifierEmails
        = exStateNewFlagged.clarifierEmails ∧
      ((orchestrate exOracles exInput exStateNewFlagged).1).claim.clarifying_sent
        = true) :=
  ⟨c7_clarifier_at_most_once.1 [exOp], rfl, rfl, rfl,
   c7_clarifier_at_most_once.2.2 exOracles exInput exStateNewFlagged rfl rfl rfl
     (fun _ => rfl)⟩

/-- Claim C8 (amended): an attachment is persisted (under its slash-sanitized
name) precisely when its splitext extension, lower-cased, is one of the nine
extensions of DOCUMENT_EXTS and its size is at most 10 MiB; all others are
silently dropped.  The spec's wider 24-extension set is not what the code
accepts. -/
theorem c8_attachment_filter (atts : List Attachment) :
    save_attachments atts
      = (atts.filter (fun a =>
            [".pdf", ".docx", ".doc", ".txt", ".jpg", ".jpeg", ".png", ".tiff",
              ".tif"].contains
                (String.mk ((splitextExt a.filename.data).map Char.toLower))
            && a.size ≤ 10 * 1024 * 1024)).map
          (fun a => String.mk
            ((if a.filename = "" then "attachment" else a.filename).data.map
              fun c => if c == '/' then '_' else c)) :=
  save_attachments_spec atts

/-- Claim C8, counterexample to the spec sentence: the spec's admission set
accepts a small report.csv, but the code's is_document refuses the csv
extension and the attachment is dropped. -/
theorem c8_spec_set_too_wide :
    specAccepts { filename := "report.csv", size := 100 } = true ∧
    is_document "report.csv" = false ∧
    save_attachments [{ filename := "report.csv", size := 100 }] = [] :=
  ⟨by decide, by decide, by decide⟩

/-- Claim C9: after any sequence of orchestrator operations at most one
decision record per agent exists; overwrite_decision leaves exactly the new
record for the written agent and the records of every other agent exactly as
they were. -/
theorem c9_at_most_one_decision :
    (∀ (ops : List Op) (a : String),
        ((applyOps ops initState).decisions.filter
            (fun d => d.agent == a)).length ≤ 1) ∧
    (∀ (ds : List DecisionRec) (a v : String),
        (overwrite_decision ds a v).filter (fun d => d.agent == a)
          = [{ agent := a, decision := v }]) ∧
    (∀ (ds : List DecisionRec) (a v b : String), b ≠ a →
        (overwrite_decision ds a v).filter (fun d => d.agent == b)
          = ds.filter (fun d => d.agent == b)) :=
  ⟨fun ops a => applyOps_decAtMostOne ops a,
   overwrite_filter_self,
   fun ds _ v _ h => overwrite_filter_other ds v h⟩

/-- Claim C9, witness: the invariant after two concrete ops, a second decision
for theft_assistant replacing the first, and fire_assistant records untouched
by that overwrite. -/
theorem c9_decision_witness :
    (((applyOps [exOp, exOpTool] initState).decisions.filter
        (fun d => d.agent == "theft_assistant")).length ≤ 1) ∧
    ((overwrite_decision [{ agent := "theft_assistant", decision := "old" }]
          "theft_assistant" "new").filter (fun d => d.agent == "theft_assistant")
        = [{ agent := "theft_assistant", decision := "new" }]) ∧
    ("fire_assistant" ≠ "theft_assistant") ∧
    ((overwrite_decision [{ agent := "theft_assistant", decision := "old" }]
          "theft_assistant" "new").filter (fun d => d.agent == "fire_assistant")
        = [{ agent := "theft_assistant", decision := "old" }].filter
            (fun d => d.agent == "fire_assistant")) :=
  ⟨c9_at_most_one_decision.1 [exOp, exOpTool] "theft_assistant",
   c9_at_most_one_decision.2.1 [{ agent := "theft_assistant", decision := "old" }]
     "theft_assistant" "new",
   by decide,
   c9_at_most_one_decision.2.2 [{ agent := "theft_assistant", decision := "old" }]
     "theft_assistant" "new" "fire_assistant" (by decide)⟩

/-- Claim C10 (code bug): the attachment describer resolves the legacy thread
folder while update_context reads the claim folder: the two paths differ for
every claim id and every digest, the describer run never touches the
claim-folder mapping update_context loads, and a read of the claim-folder
attachment_data.json after a describer write to a fresh store finds nothing. -/
theorem c10_describer_wrong_folder :
    (∀ (md5hex : String → String) (claim_id : String),
        get_session_folder md5hex claim_id ≠ get_claim_session_folder claim_id) ∧
    (∀ (orc : Oracles) (s : SessionState),
        ((generate_attachment_details orc s).1).adClaimFolder = s.adClaimFolder) ∧
    (∀ (md5hex : String → String) (claim_id : String) (v : AttachmentDetails),
        fsRead (fsWrite [] (describerWritePath md5hex claim_id) v)
          (updateContextReadPath claim_id) = none) := by
  refine ⟨?_, ?_, ?_⟩
  · intro md5hex cid
    exact thread_folder_ne_claim_folder md5hex cid cid
  · intro orc s
    unfold generate_attachment_details
    cases orc.describeResult <;> rfl
  · intro md5hex cid v
    have hne : updateContextReadPath cid ≠ describerWritePath md5hex cid :=
      fun h => describer_path_ne_context_path md5hex cid cid h.symm
    have hbeq : (updateContextReadPath cid == describerWritePath md5hex cid) = false :=
      beq_eq_false_iff_ne.mpr hne
    simp [fsRead, fsWrite, List.lookup, hbeq]

end Claimix
